import Mathlib

/-!
Verification of the logstash formatter (src/logstash/formatter.py).

The development shallowly embeds the formatter in Lean:

* Timestamps are exact rationals (POSIX epoch seconds).  The CPython calendar
  conversion (datetime.utcfromtimestamp, which rounds the fractional seconds to
  the nearest microsecond, ties to even) and the glibc strftime rendering used
  on Linux (zero-padded two-digit fields, but an UNPADDED year below 1000) are
  embedded as executable functions, following the stdlib algorithms
  (the ordinal/civil conversion is the one of the datetime module).
* Python values are a mutual inductive type; the formatter code points that can
  raise (attribute reads, timestamp range errors, JSON encoding) return Except.
-/

set_option maxHeartbeats 1600000

namespace Logstash

/-! ## Calendar arithmetic (model of the datetime module conversion) -/

/-- Days in each month of a non-leap year, as in the datetime module table. -/
def DAYS_IN_MONTH (m : Nat) : Nat :=
  match m with
  | 1 => 31 | 2 => 28 | 3 => 31 | 4 => 30 | 5 => 31 | 6 => 30
  | 7 => 31 | 8 => 31 | 9 => 30 | 10 => 31 | 11 => 30 | 12 => 31
  | _ => 0

/-- Days before the start of each month of a non-leap year. -/
def DAYS_BEFORE_MONTH (m : Nat) : Nat :=
  match m with
  | 1 => 0 | 2 => 31 | 3 => 59 | 4 => 90 | 5 => 120 | 6 => 151
  | 7 => 181 | 8 => 212 | 9 => 243 | 10 => 273 | 11 => 304 | 12 => 334
  | _ => 0

/-- Proleptic Gregorian leap-year test (datetime module). -/
def isLeap (y : Nat) : Bool :=
  y % 4 == 0 && (y % 100 != 0 || y % 400 == 0)

/-- Number of days before January 1st of year y (datetime module). -/
def daysBeforeYear (y : Nat) : Nat :=
  (y - 1) * 365 + (y - 1) / 4 - (y - 1) / 100 + (y - 1) / 400

/-- Days in the given month of the given year. -/
def daysInMonthY (y m : Nat) : Nat :=
  if m = 2 ∧ isLeap y then 29 else DAYS_IN_MONTH m

/-- Days in year y preceding the first of month m. -/
def daysBeforeMonthY (y m : Nat) : Nat :=
  DAYS_BEFORE_MONTH m + (if 2 < m ∧ isLeap y then 1 else 0)

/-- Ordinal of a calendar date, counting 0001-01-01 as day 1 (datetime module). -/
def ymd2ord (y m d : Nat) : Nat :=
  daysBeforeYear y + daysBeforeMonthY y m + d

/-- Inverse conversion from an ordinal to a calendar date, following the
    datetime module algorithm based on 400-, 100-, 4- and 1-year cycles. -/
def ord2ymd (n : Nat) : Nat × Nat × Nat :=
  let n0 := n - 1
  let n400 := n0 / 146097
  let r1 := n0 % 146097
  let n100 := r1 / 36524
  let r2 := r1 % 36524
  let n4 := r2 / 1461
  let r3 := r2 % 1461
  let n1 := r3 / 365
  let r4 := r3 % 365
  let year := n400 * 400 + n100 * 100 + n4 * 4 + n1 + 1
  if n1 = 4 ∨ n100 = 4 then
    (year - 1, 12, 31)
  else
    let leap := n1 = 3 ∧ (n4 ≠ 24 ∨ n100 = 3)
    let month := (r4 + 50) / 32
    let preceding := DAYS_BEFORE_MONTH month + (if 2 < month ∧ leap then 1 else 0)
    if r4 < preceding then
      let month2 := month - 1
      let preceding2 :=
        preceding - (DAYS_IN_MONTH month2 + (if month2 = 2 ∧ leap then 1 else 0))
      (year, month2, r4 - preceding2 + 1)
    else
      (year, month, r4 - preceding + 1)

/-! ## Timestamp formatting (format_timestamp) -/

/-- Rounding of a rational to the nearest integer, ties to even: the rounding
    used by datetime.utcfromtimestamp when converting seconds to microseconds. -/
def rhe (q : ℚ) : Int :=
  let f := ⌊q⌋
  let r := q - (f : ℚ)
  if r < 1/2 then f
  else if 1/2 < r then f + 1
  else if f % 2 = 0 then f else f + 1

/-- Ordinal of 1970-01-01, the POSIX epoch. -/
def EPOCH_ORDINAL : Nat := 719163

def usPerDay : Int := 86400000000

/-- Smallest total-microsecond value utcfromtimestamp accepts (year 1). -/
def minMicros : Int := -62135596800000000

/-- Largest total-microsecond value utcfromtimestamp accepts (year 9999). -/
def maxMicros : Int := 253402300799999999

/-- Two-digit zero-padded decimal rendering (glibc percent-H and friends). -/
def pad2 (n : Nat) : List Char := [Nat.digitChar (n / 10), Nat.digitChar (n % 10)]

/-- Three-digit zero-padded decimal rendering (the percent-03d millisecond field). -/
def pad3 (n : Nat) : List Char := Nat.digitChar (n / 100) :: pad2 (n % 100)

def pad4 (n : Nat) : List Char := Nat.digitChar (n / 1000) :: pad3 (n % 1000)

/-- Rendering of the year by glibc strftime percent-Y on Linux: plain decimal
    digits, NOT zero padded below 1000 (years here are between 1 and 9999). -/
def yearChars (y : Nat) : List Char :=
  if y < 10 then [Nat.digitChar y]
  else if y < 100 then [Nat.digitChar (y / 10), Nat.digitChar (y % 10)]
  else if y < 1000 then Nat.digitChar (y / 100) :: pad2 (y % 100)
  else pad4 y

/-- Characters of the date part of the stamp: year-month-day. -/
def dateChars (c : Nat × Nat × Nat) : List Char :=
  yearChars c.1 ++ '-' :: (pad2 c.2.1 ++ '-' :: pad2 c.2.2)

/-- Characters of the time-of-day part of the stamp, from the microsecond of
    the day: the datetime fields are rendered by strftime, and the millisecond
    field is microsecond divided by 1000, truncated by the percent-d format. -/
def timeChars (usod : Nat) : List Char :=
  let h := usod / 3600000000
  let r := usod % 3600000000
  let mi := r / 60000000
  let r2 := r % 60000000
  let s := r2 / 1000000
  let micro := r2 % 1000000
  let ms := micro / 1000
  'T' :: (pad2 h ++ ':' :: (pad2 mi ++ ':' :: (pad2 s ++ '.' :: (pad3 ms ++ ['Z']))))

/-- Full stamp for a total-microsecond value counted from the epoch. -/
def stampChars (us : Int) : List Char :=
  dateChars (ord2ymd (Int.toNat ((EPOCH_ORDINAL : Int) + us / usPerDay))) ++
    timeChars (Int.toNat (us % usPerDay))

inductive PyErr : Type where
  | attributeError
  | typeError
  | valueError
  deriving DecidableEq, Repr

instance {ε α : Type} [DecidableEq ε] [DecidableEq α] : DecidableEq (Except ε α) := fun a b =>
  match a, b with
  | .ok x, .ok y =>
    if h : x = y then isTrue (by rw [h]) else isFalse (by simp [h])
  | .error x, .error y =>
    if h : x = y then isTrue (by rw [h]) else isFalse (by simp [h])
  | .ok _, .error _ => isFalse (by simp)
  | .error _, .ok _ => isFalse (by simp)

/-- Model of LogstashFormatterBase.format_timestamp: utcfromtimestamp rounds
    the seconds to total microseconds (ties to even) and fails outside years
    1 to 9999; strftime then renders the fields, and the millisecond field is
    the microsecond field divided by 1000 and truncated. -/
def format_timestamp (t : ℚ) : Except PyErr String :=
  let us := rhe (t * 1000000)
  if us < minMicros ∨ maxMicros < us then .error .valueError
  else .ok (String.mk (stampChars us))

/-! ## Lexicographic string comparison (model of Python string ordering) -/

/-- Three-way lexicographic comparison of character lists by code point. -/
def clCmp : List Char → List Char → Ordering
  | [], [] => .eq
  | [], _ :: _ => .lt
  | _ :: _, [] => .gt
  | a :: as, b :: bs =>
    if a.toNat < b.toNat then .lt
    else if b.toNat < a.toNat then .gt
    else clCmp as bs

/-- Python string less-or-equal, by code points. -/
def strLe (s t : String) : Bool :=
  match clCmp s.data t.data with
  | .gt => false
  | _ => true

/-- Three-way comparison of naturals, for stating the pad lemmas. -/
def natCmp (a b : Nat) : Ordering :=
  if a < b then .lt else if b < a then .gt else .eq

/-- Strict lexicographic order on calendar dates as year-month-day triples. -/
def dateLt (c c2 : Nat × Nat × Nat) : Prop :=
  c.1 < c2.1 ∨ (c.1 = c2.1 ∧ (c.2.1 < c2.2.1 ∨ (c.2.1 = c2.2.1 ∧ c.2.2 < c2.2.2)))

/-! ## Python values

A mutual inductive of the runtime values the formatter dispatches on.  A
datetime or date object is abstracted by the whole-second POSIX value that
time.mktime returns for its timetuple (timetuple already drops microseconds);
a Decimal by its exact rational value; a UUID by its 128-bit integer; any
other object by its repr string.  An exception-info triple is abstracted by
the list of lines traceback.format_exception produces for it. -/

mutual

inductive PyValue : Type where
  | str (s : String)
  | bool (b : Bool)
  | int (n : Int)
  | float (q : ℚ)
  | none
  | dict (kvs : PyKVs)
  | list (items : PyList)
  | tuple (items : PyList)
  | datetime (epochSec : Int)
  | decimal (q : ℚ)
  | uuid (n : Nat)
  | obj (r : String)
  | excInfo (lines : List String)
  deriving DecidableEq

inductive PyList : Type where
  | nil
  | cons (v : PyValue) (rest : PyList)
  deriving DecidableEq

inductive PyKVs : Type where
  | nil
  | cons (k : String) (v : PyValue) (rest : PyKVs)
  deriving DecidableEq

end

def PyList.length : PyList → Nat
  | .nil => 0
  | .cons _ rest => 1 + rest.length

def PyList.get? : PyList → Nat → Option PyValue
  | .nil, _ => Option.none
  | .cons v _, 0 => some v
  | .cons _ rest, n + 1 => rest.get? n

def PyKVs.keys : PyKVs → List String
  | .nil => []
  | .cons k _ rest => k :: rest.keys

def PyKVs.lookup : PyKVs → String → Option PyValue
  | .nil, _ => Option.none
  | .cons k v rest, k2 => if k2 = k then some v else rest.lookup k2

/-- Python truthiness of a value. -/
def pyTruthy : PyValue → Bool
  | .str s => s ≠ ""
  | .bool b => b
  | .int n => n ≠ 0
  | .float q => q ≠ 0
  | .none => false
  | .dict .nil => false
  | .dict _ => true
  | .list .nil => false
  | .list _ => true
  | .tuple .nil => false
  | .tuple _ => true
  | .datetime _ => true
  | .decimal q => q ≠ 0
  | .uuid _ => true
  | .obj _ => true
  | .excInfo _ => true

/-- Canonical 32-digit lowercase hexadecimal form of a UUID (the hex field). -/
def uuidHex (n : Nat) : String :=
  String.mk ((List.range 32).map (fun i => Nat.digitChar (n / 16 ^ (31 - i) % 16)))

mutual

/-- Model of the repr form of a value, used by the fallback branch of
    value_repr.  An opaque object carries its repr string directly. -/
def pyRepr : PyValue → String
  | .str s => "\x27" ++ s ++ "\x27"
  | .bool b => if b then "True" else "False"
  | .int n => toString n
  | .float q => toString q
  | .none => "None"
  | .dict kvs => "\x7b" ++ pyReprKVs kvs ++ "\x7d"
  | .list items => "[" ++ pyReprList items ++ "]"
  | .tuple (.cons v .nil) => "(" ++ pyRepr v ++ ",)"
  | .tuple items => "(" ++ pyReprList items ++ ")"
  | .datetime e => "datetime.datetime(" ++ toString e ++ ")"
  | .decimal q => "Decimal(\x27" ++ toString q ++ "\x27)"
  | .uuid n => "UUID(\x27" ++ uuidHex n ++ "\x27)"
  | .obj r => r
  | .excInfo lines => "(" ++ String.intercalate ", " lines ++ ")"

def pyReprList : PyList → String
  | .nil => ""
  | .cons v .nil => pyRepr v
  | .cons v rest => pyRepr v ++ ", " ++ pyReprList rest

def pyReprKVs : PyKVs → String
  | .nil => ""
  | .cons k v .nil => "\x27" ++ k ++ "\x27: " ++ pyRepr v
  | .cons k v rest => "\x27" ++ k ++ "\x27: " ++ pyRepr v ++ ", " ++ pyReprKVs rest

end

mutual

/-- Model of the nested value_repr function of
    LogstashFormatterBase.get_extra_fields.  Mapping values and list values
    recurse; datetime and date values go through format_timestamp (which can
    fail outside the representable year range, modelling the underlying C
    library errors); Decimal becomes a float through its exact string form;
    UUID becomes its hex string; the easy types pass unchanged; anything else
    (tuples included: the source tests isinstance(value, list) only) falls
    back to its repr string. -/
def value_repr : PyValue → Except PyErr PyValue
  | .dict kvs => do
    let r ← value_repr_kvs kvs
    pure (.dict r)
  | .list items => do
    let r ← value_repr_list items
    pure (.list r)
  | .datetime e => do
    let s ← format_timestamp (e : ℚ)
    pure (.str s)
  | .decimal q => pure (.float q)
  | .uuid n => pure (.str (uuidHex n))
  | .str s => pure (.str s)
  | .bool b => pure (.bool b)
  | .float q => pure (.float q)
  | .int n => pure (.int n)
  | .none => pure .none
  | .tuple items => pure (.str (pyRepr (.tuple items)))
  | .obj r => pure (.str (pyRepr (.obj r)))
  | .excInfo lines => pure (.str (pyRepr (.excInfo lines)))

def value_repr_kvs : PyKVs → Except PyErr PyKVs
  | .nil => pure .nil
  | .cons k v rest => do
    let w ← value_repr v
    let r ← value_repr_kvs rest
    pure (.cons k w r)

def value_repr_list : PyList → Except PyErr PyList
  | .nil => pure .nil
  | .cons v rest => do
    let w ← value_repr v
    let r ← value_repr_list rest
    pure (.cons w r)

end

mutual

/-- JSON-safe values: the values json.dumps can encode (strings, booleans,
    integers, floats, None, and dicts, lists and tuples of such). -/
def jsonSafe : PyValue → Bool
  | .str _ => true
  | .bool _ => true
  | .int _ => true
  | .float _ => true
  | .none => true
  | .dict kvs => jsonSafeKVs kvs
  | .list items => jsonSafeList items
  | .tuple items => jsonSafeList items
  | .datetime _ => false
  | .decimal _ => false
  | .uuid _ => false
  | .obj _ => false
  | .excInfo _ => false

def jsonSafeKVs : PyKVs → Bool
  | .nil => true
  | .cons _ v rest => jsonSafe v && jsonSafeKVs rest

def jsonSafeList : PyList → Bool
  | .nil => true
  | .cons v rest => jsonSafe v && jsonSafeList rest

end

mutual

/-- Values in the image of value_repr: primitives, and dicts and lists of
    such values.  These are exactly the JSON-safe values without tuples. -/
def normalVal : PyValue → Bool
  | .str _ => true
  | .bool _ => true
  | .int _ => true
  | .float _ => true
  | .none => true
  | .dict kvs => normalKVs kvs
  | .list items => normalList items
  | _ => false

def normalKVs : PyKVs → Bool
  | .nil => true
  | .cons _ v rest => normalVal v && normalKVs rest

def normalList : PyList → Bool
  | .nil => true
  | .cons v rest => normalVal v && normalList rest

end

/-- Range of whole-second values accepted by format_timestamp: the POSIX
    values of the calendar years 1 to 9999, which is where every Python
    datetime or date lands under a UTC clock. -/
def secInRange (e : Int) : Bool :=
  -62135596800 ≤ e && e ≤ 253402300799

mutual

/-- All datetime leaves reachable through dicts and lists carry a
    representable epoch value. -/
def datesInRange : PyValue → Bool
  | .datetime e => secInRange e
  | .dict kvs => datesInRangeKVs kvs
  | .list items => datesInRangeList items
  | _ => true

def datesInRangeKVs : PyKVs → Bool
  | .nil => true
  | .cons _ v rest => datesInRange v && datesInRangeKVs rest

def datesInRangeList : PyList → Bool
  | .nil => true
  | .cons v rest => datesInRange v && datesInRangeList rest

end

mutual

/-- Nested containers (dicts and lists) whose leaves are the supported leaf
    categories: datetimes in the representable range, decimals, UUIDs and the
    primitive JSON-safe types. -/
def supportedLeaves : PyValue → Bool
  | .str _ => true
  | .bool _ => true
  | .int _ => true
  | .float _ => true
  | .none => true
  | .datetime e => secInRange e
  | .decimal _ => true
  | .uuid _ => true
  | .dict kvs => supportedLeavesKVs kvs
  | .list items => supportedLeavesList items
  | _ => false

def supportedLeavesKVs : PyKVs → Bool
  | .nil => true
  | .cons _ v rest => supportedLeaves v && supportedLeavesKVs rest

def supportedLeavesList : PyList → Bool
  | .nil => true
  | .cons v rest => supportedLeaves v && supportedLeavesList rest

end

mutual

/-- Structural identity of containers: dicts map to dicts with the same keys
    in the same order, lists to lists of the same length elementwise, and a
    non-container maps to a non-container. -/
def sameShape : PyValue → PyValue → Bool
  | .dict kvs, .dict kvs2 => sameShapeKVs kvs kvs2
  | .dict _, _ => false
  | .list items, .list items2 => sameShapeList items items2
  | .list _, _ => false
  | _, .dict _ => false
  | _, .list _ => false
  | _, .tuple _ => false
  | _, _ => true

def sameShapeKVs : PyKVs → PyKVs → Bool
  | .nil, .nil => true
  | .cons k v rest, .cons k2 v2 rest2 => k = k2 && sameShape v v2 && sameShapeKVs rest rest2
  | _, _ => false

def sameShapeList : PyList → PyList → Bool
  | .nil, .nil => true
  | .cons v rest, .cons v2 rest2 => sameShape v v2 && sameShapeList rest rest2
  | _, _ => false

end

/-- Values outside every supported category of value_repr: these reach the
    fallback branch (tuples included, since the source only tests for list). -/
def unsupportedVal : PyValue → Bool
  | .tuple _ => true
  | .obj _ => true
  | .excInfo _ => true
  | _ => false

/-! ## Log records and the attribute scan -/

/-- A log record: its attribute dictionary (an association list standing for
    record dot-dict, whose keys are unique in Python), plus the rendered
    message that getMessage returns. -/
structure LogRecord where
  attrs : List (String × PyValue)
  rendered : String

/-- Attribute read that fails with AttributeError when the name is absent. -/
def getattrE (rec : LogRecord) (k : String) : Except PyErr PyValue :=
  match rec.attrs.lookup k with
  | some v => .ok v
  | Option.none => .error .attributeError

/-- Attribute read with a None-like default, as getattr(record, k, None). -/
def getattrOpt (rec : LogRecord) (k : String) : Option PyValue :=
  rec.attrs.lookup k

/-- The reserved attribute names skipped by get_extra_fields, exactly as the
    source lists them (msecs appears twice in the source tuple). -/
def skip_list : List String :=
  ["args", "asctime", "created", "exc_info", "exc_text", "filename",
   "funcName", "id", "levelname", "levelno", "lineno", "module",
   "msecs", "msecs", "message", "msg", "name", "pathname", "process",
   "processName", "relativeCreated", "thread", "threadName", "extra"]

/-- Model of Python dict item assignment: overwrite the value in place when
    the key is present, otherwise append the new binding. -/
def dictInsert (d : List (String × PyValue)) (k : String) (v : PyValue) :
    List (String × PyValue) :=
  if (d.lookup k).isSome then
    d.map (fun kv => if kv.1 = k then (k, v) else kv)
  else
    d ++ [(k, v)]

/-- Model of Python dict update: insert every binding of the second dict into
    the first, in order. -/
def dictUpdate (d e : List (String × PyValue)) : List (String × PyValue) :=
  e.foldl (fun acc kv => dictInsert acc kv.1 kv.2) d

/-- Model of LogstashFormatterBase.get_extra_fields: walk the record
    attribute dictionary, skip reserved names, normalize every other value
    with value_repr. -/
def get_extra_fields_aux : List (String × PyValue) → Except PyErr (List (String × PyValue))
  | [] => pure []
  | (k, v) :: rest =>
    if k ∈ skip_list then get_extra_fields_aux rest
    else do
      let w ← value_repr v
      let r ← get_extra_fields_aux rest
      pure ((k, w) :: r)

def get_extra_fields (rec : LogRecord) : Except PyErr (List (String × PyValue)) :=
  get_extra_fields_aux rec.attrs

/-- Model of LogstashFormatterBase.format_exception: the joined traceback
    lines when the triple is truthy, the empty string otherwise; unpacking a
    non-triple fails. -/
def format_exception (exc : PyValue) : Except PyErr String :=
  if pyTruthy exc then
    match exc with
    | .excInfo lines => .ok (String.join lines)
    | _ => .error .typeError
  else .ok ""

/-- Model of LogstashFormatterBase.get_debug_fields.  The two guards add a
    funcName or processName binding exactly when getattr returns a falsy
    value; when the attribute is absent altogether, the direct attribute read
    in the guard body raises AttributeError. -/
def get_debug_fields (rec : LogRecord) : Except PyErr (List (String × PyValue)) := do
  let exc ← getattrE rec "exc_info"
  let st ← format_exception exc
  let lineno ← getattrE rec "lineno"
  let process ← getattrE rec "process"
  let thread ← getattrE rec "threadName"
  let fields : List (String × PyValue) :=
    [("stack_trace", .str st), ("lineno", lineno),
     ("process", process), ("thread_name", thread)]
  let fields ← match getattrOpt rec "funcName" with
    | some v => pure (if pyTruthy v then fields else dictInsert fields "funcName" v)
    | Option.none => Except.error PyErr.attributeError
  let fields ← match getattrOpt rec "processName" with
    | some v => pure (if pyTruthy v then fields else dictInsert fields "processName" v)
    | Option.none => Except.error PyErr.attributeError
  pure fields

/-! ## The version-1 document builder -/

/-- Immutable formatter configuration: the host string is resolved once at
    construction time (from the short or fully qualified hostname). -/
structure FormatterConfig where
  message_type : String := "Logstash"
  tags : PyList := .nil
  host : String

/-- Conversion of the created attribute to seconds, as utcfromtimestamp
    accepts it: integers, floats and booleans; anything else is a fatal
    type error. -/
def pyNumToRat : PyValue → Except PyErr ℚ
  | .int n => .ok (n : ℚ)
  | .float q => .ok q
  | .bool b => .ok (if b then 1 else 0)
  | _ => .error .typeError

/-- The initial flat mapping built by LogstashFormatterVersion1.format, in
    source order, before extras and debug fields are merged. -/
def v1Base (cfg : FormatterConfig) (rec : LogRecord)
    (ts : String) (path lvl nm : PyValue) : List (String × PyValue) :=
  [("@timestamp", .str ts),
   ("@version", .str "1"),
   ("message", .str rec.rendered),
   ("host", .str cfg.host),
   ("path", path),
   ("tags", .list cfg.tags),
   ("type", .str cfg.message_type),
   ("level", lvl),
   ("logger_name", nm)]

/-- Model of LogstashFormatterVersion1.format up to serialization: build the
    base mapping, update it with the extra fields, and, when the record
    carries a truthy exc_info, update it with the debug fields. -/
def v1Message (cfg : FormatterConfig) (rec : LogRecord) :
    Except PyErr (List (String × PyValue)) := do
  let created ← getattrE rec "created"
  let c ← pyNumToRat created
  let ts ← format_timestamp c
  let path ← getattrE rec "pathname"
  let lvl ← getattrE rec "levelname"
  let nm ← getattrE rec "name"
  let base := v1Base cfg rec ts path lvl nm
  let extras ← get_extra_fields rec
  let m1 := dictUpdate base extras
  let exc ← getattrE rec "exc_info"
  if pyTruthy exc then do
    let dbg ← get_debug_fields rec
    pure (dictUpdate m1 dbg)
  else
    pure m1

/-! ## Serialization (model of json.dumps plus utf-8 encoding) -/

/-- JSON string escaping: quotes, backslashes and control characters. -/
def jsonEscapeChar (c : Char) : String :=
  if c = '"' then "\\\""
  else if c = '\\' then "\\\\"
  else if c.toNat < 32 then
    "\\u00" ++ String.mk [Nat.digitChar (c.toNat / 16), Nat.digitChar (c.toNat % 16)]
  else String.singleton c

def jsonString (s : String) : String :=
  "\"" ++ String.join (s.data.map jsonEscapeChar) ++ "\""

mutual

/-- Model of json.dumps on a value: encodes the JSON-safe values and raises
    a type error (the SerializationError of the design) on anything else. -/
def jsonEncode : PyValue → Except PyErr String
  | .str s => pure (jsonString s)
  | .bool b => pure (if b then "true" else "false")
  | .int n => pure (toString n)
  | .float q => pure (toString q)
  | .none => pure "null"
  | .dict kvs => do
    let s ← jsonEncodeKVs kvs
    pure ("\x7b" ++ s ++ "\x7d")
  | .list items => do
    let s ← jsonEncodeList items
    pure ("[" ++ s ++ "]")
  | .tuple items => do
    let s ← jsonEncodeList items
    pure ("[" ++ s ++ "]")
  | .datetime _ => .error .typeError
  | .decimal _ => .error .typeError
  | .uuid _ => .error .typeError
  | .obj _ => .error .typeError
  | .excInfo _ => .error .typeError

def jsonEncodeKVs : PyKVs → Except PyErr String
  | .nil => pure ""
  | .cons k v .nil => do
    let s ← jsonEncode v
    pure (jsonString k ++ ": " ++ s)
  | .cons k v rest => do
    let s ← jsonEncode v
    let r ← jsonEncodeKVs rest
    pure (jsonString k ++ ": " ++ s ++ ", " ++ r)

def jsonEncodeList : PyList → Except PyErr String
  | .nil => pure ""
  | .cons v .nil => jsonEncode v
  | .cons v rest => do
    let s ← jsonEncode v
    let r ← jsonEncodeList rest
    pure (s ++ ", " ++ r)

end

/-- Encoding of the top-level document dictionary. -/
def jsonEncodeDoc : List (String × PyValue) → Except PyErr String
  | [] => pure ""
  | [(k, v)] => do
    let s ← jsonEncode v
    pure (jsonString k ++ ": " ++ s)
  | (k, v) :: rest => do
    let s ← jsonEncode v
    let r ← jsonEncodeDoc rest
    pure (jsonString k ++ ": " ++ s ++ ", " ++ r)

/-- UTF-8 encoding of one character. -/
def utf8EncodeChar (c : Char) : List Nat :=
  let n := c.toNat
  if n < 128 then [n]
  else if n < 2048 then [192 + n / 64, 128 + n % 64]
  else if n < 65536 then [224 + n / 4096, 128 + n / 64 % 64, 128 + n % 64]
  else [240 + n / 262144, 128 + n / 4096 % 64, 128 + n / 64 % 64, 128 + n % 64]

def utf8Encode (s : String) : List Nat :=
  s.data.flatMap utf8EncodeChar

/-- Whether every value of the document is JSON safe. -/
def jsonSafeDoc (m : List (String × PyValue)) : Bool :=
  m.all (fun kv => jsonSafe kv.2)

/-- Model of LogstashFormatterBase.serialize on Python 3: json.dumps then
    utf-8 bytes. -/
def serialize (message : List (String × PyValue)) : Except PyErr (List Nat) := do
  let s ← jsonEncodeDoc message
  pure (utf8Encode ("\x7b" ++ s ++ "\x7d"))

/-- The whole version-1 format call: build the document and serialize it. -/
def formatV1 (cfg : FormatterConfig) (rec : LogRecord) : Except PyErr (List Nat) := do
  let m ← v1Message cfg rec
  serialize m

/-! ## Basic lemmas about the error monad and dictionaries -/

theorem bind_eq_ok {ε α β : Type} {x : Except ε α} {f : α → Except ε β} {b : β} :
    (x >>= f) = .ok b ↔ ∃ a, x = .ok a ∧ f a = .ok b := by
  cases x <;> simp [Bind.bind, Except.bind]

theorem pure_eq_ok {ε α : Type} {a b : α} :
    (pure a : Except ε α) = .ok b ↔ a = b := by
  constructor
  · intro h
    exact Except.ok.inj h
  · intro h
    rw [h]
    rfl

/-! ## C1: the reserved-name filter of get_extra_fields -/

theorem get_extra_fields_aux_lookup (attrs : List (String × PyValue))
    (fields : List (String × PyValue)) (h : get_extra_fields_aux attrs = .ok fields)
    (k : String) :
    fields.lookup k =
      match attrs.lookup k with
      | some v => if k ∈ skip_list then none else (value_repr v).toOption
      | none => none := by
  induction attrs generalizing fields with
  | nil =>
    simp only [get_extra_fields_aux, pure_eq_ok] at h
    subst h
    simp [List.lookup]
  | cons kv rest ih =>
    obtain ⟨k1, v⟩ := kv
    simp only [get_extra_fields_aux] at h
    by_cases hs : k1 ∈ skip_list
    · rw [if_pos hs] at h
      by_cases hk : k = k1
      · subst hk
        rw [ih fields h]
        simp only [List.lookup, beq_self_eq_true]
        cases hrest : rest.lookup k <;> simp [if_pos hs, hrest]
      · have hbeq : (k == k1) = false := beq_false_of_ne hk
        simp [List.lookup, hbeq, ih fields h]
    · rw [if_neg hs] at h
      rw [bind_eq_ok] at h
      obtain ⟨w, hw, h⟩ := h
      rw [bind_eq_ok] at h
      obtain ⟨r, hr, h⟩ := h
      rw [pure_eq_ok] at h
      subst h
      by_cases hk : k = k1
      · subst hk
        simp [List.lookup, if_neg hs, hw, Except.toOption]
      · have hbeq : (k == k1) = false := beq_false_of_ne hk
        simp [List.lookup, hbeq, ih r hr]

theorem get_extra_fields_aux_processed (attrs : List (String × PyValue))
    (fields : List (String × PyValue)) (h : get_extra_fields_aux attrs = .ok fields)
    (k : String) (v : PyValue) (hk : attrs.lookup k = some v) (hs : k ∉ skip_list) :
    ∃ w, value_repr v = .ok w := by
  induction attrs generalizing fields with
  | nil => simp [List.lookup] at hk
  | cons kv rest ih =>
    obtain ⟨k1, v1⟩ := kv
    simp only [get_extra_fields_aux] at h
    by_cases hk1 : k = k1
    · subst hk1
      simp only [List.lookup, beq_self_eq_true] at hk
      obtain rfl : v1 = v := Option.some.inj hk
      rw [if_neg hs] at h
      rw [bind_eq_ok] at h
      obtain ⟨w, hw, _⟩ := h
      exact ⟨w, hw⟩
    · have hbeq : (k == k1) = false := beq_false_of_ne hk1
      simp only [List.lookup, hbeq] at hk
      by_cases hs1 : k1 ∈ skip_list
      · rw [if_pos hs1] at h
        exact ih fields h hk
      · rw [if_neg hs1] at h
        rw [bind_eq_ok] at h
        obtain ⟨w, _, h⟩ := h
        rw [bind_eq_ok] at h
        obtain ⟨r, hr, _⟩ := h
        exact ih r hr hk

/-- C1: the extras mapping produced by get_extra_fields binds exactly the
    record attributes whose name is outside the reserved skip list, each bound
    to its value_repr image, and never binds a reserved name, whatever the
    value stored under it. -/
theorem claim1_extra_fields_name_filter (rec : LogRecord)
    (fields : List (String × PyValue)) (h : get_extra_fields rec = .ok fields)
    (k : String) :
    (k ∈ skip_list → fields.lookup k = none) ∧
    (k ∉ skip_list →
      (∀ v, rec.attrs.lookup k = some v →
        ∃ w, value_repr v = .ok w ∧ fields.lookup k = some w) ∧
      (rec.attrs.lookup k = none → fields.lookup k = none)) := by
  have hl := get_extra_fields_aux_lookup rec.attrs fields h k
  constructor
  · intro hs
    rw [hl]
    cases hk : rec.attrs.lookup k <;> simp [hk, if_pos hs]
  · intro hs
    constructor
    · intro v hv
      obtain ⟨w, hw⟩ := get_extra_fields_aux_processed rec.attrs fields h k v hv hs
      refine ⟨w, hw, ?_⟩
      rw [hl, hv]
      simp [if_neg hs, hw, Except.toOption]
    · intro hv
      rw [hl, hv]

/-- Witness for C1 at a concrete record carrying a reserved attribute called
    name and an extra attribute called user_id. -/
theorem claim1_witness :
    ("name" ∈ skip_list → ([("user_id", PyValue.int 42)] : List (String × PyValue)).lookup "name" = none) ∧
    ("name" ∉ skip_list →
      (∀ v, (({ attrs := [("name", PyValue.str "secret"), ("user_id", PyValue.int 42)],
                rendered := "m" } : LogRecord)).attrs.lookup "name" = some v →
        ∃ w, value_repr v = .ok w ∧
          ([("user_id", PyValue.int 42)] : List (String × PyValue)).lookup "name" = some w) ∧
      ((({ attrs := [("name", PyValue.str "secret"), ("user_id", PyValue.int 42)],
           rendered := "m" } : LogRecord)).attrs.lookup "name" = none →
        ([("user_id", PyValue.int 42)] : List (String × PyValue)).lookup "name" = none)) :=
  claim1_extra_fields_name_filter
    { attrs := [("name", PyValue.str "secret"), ("user_id", PyValue.int 42)], rendered := "m" }
    [("user_id", PyValue.int 42)] (by rfl) "name"

/-! ## Lemmas about value_repr -/

theorem rhe_intCast (n : Int) : rhe ((n : Int) : ℚ) = n := by
  simp only [rhe, Int.floor_intCast, sub_self]
  norm_num

theorem format_timestamp_eq_ok (t : ℚ) (us : Int) (h : rhe (t * 1000000) = us)
    (h1 : -62135596800000000 ≤ us) (h2 : us ≤ 253402300799999999) :
    format_timestamp t = .ok (String.mk (stampChars us)) := by
  unfold format_timestamp minMicros maxMicros
  rw [h, if_neg]
  omega

theorem format_timestamp_int_ok (e : Int) (h : secInRange e = true) :
    format_timestamp (e : ℚ) = .ok (String.mk (stampChars (e * 1000000))) := by
  simp only [secInRange, Bool.and_eq_true, decide_eq_true_eq] at h
  refine format_timestamp_eq_ok (e : ℚ) (e * 1000000) ?_ (by omega) (by omega)
  have hc : ((e : ℚ) * 1000000) = (((e * 1000000 : Int)) : ℚ) := by
    push_cast
    ring
  rw [hc, rhe_intCast]

mutual

theorem value_repr_total (v : PyValue) (h : datesInRange v = true) :
    ∃ w, value_repr v = .ok w := by
  cases v with
  | dict kvs =>
    obtain ⟨r, hr⟩ := value_repr_kvs_total kvs (by simpa [datesInRange] using h)
    exact ⟨.dict r, by simp [value_repr, hr, Bind.bind, Except.bind, pure, Except.pure]⟩
  | list items =>
    obtain ⟨r, hr⟩ := value_repr_list_total items (by simpa [datesInRange] using h)
    exact ⟨.list r, by simp [value_repr, hr, Bind.bind, Except.bind, pure, Except.pure]⟩
  | datetime e =>
    refine ⟨.str (String.mk (stampChars (e * 1000000))), ?_⟩
    have he : secInRange e = true := by simpa [datesInRange] using h
    simp [value_repr, format_timestamp_int_ok e he, Bind.bind, Except.bind, pure, Except.pure]
  | str s => exact ⟨.str s, rfl⟩
  | bool b => exact ⟨.bool b, rfl⟩
  | int n => exact ⟨.int n, rfl⟩
  | float q => exact ⟨.float q, rfl⟩
  | none => exact ⟨.none, rfl⟩
  | decimal q => exact ⟨.float q, rfl⟩
  | uuid n => exact ⟨.str (uuidHex n), rfl⟩
  | tuple items => exact ⟨.str (pyRepr (.tuple items)), rfl⟩
  | obj r => exact ⟨.str (pyRepr (.obj r)), rfl⟩
  | excInfo lines => exact ⟨.str (pyRepr (.excInfo lines)), rfl⟩

theorem value_repr_kvs_total (kvs : PyKVs) (h : datesInRangeKVs kvs = true) :
    ∃ r, value_repr_kvs kvs = .ok r := by
  cases kvs with
  | nil => exact ⟨.nil, rfl⟩
  | cons k v rest =>
    simp only [datesInRangeKVs, Bool.and_eq_true] at h
    obtain ⟨w, hw⟩ := value_repr_total v h.1
    obtain ⟨r, hr⟩ := value_repr_kvs_total rest h.2
    exact ⟨.cons k w r, by
      simp [value_repr_kvs, hw, hr, Bind.bind, Except.bind, pure, Except.pure]⟩

theorem value_repr_list_total (items : PyList) (h : datesInRangeList items = true) :
    ∃ r, value_repr_list items = .ok r := by
  cases items with
  | nil => exact ⟨.nil, rfl⟩
  | cons v rest =>
    simp only [datesInRangeList, Bool.and_eq_true] at h
    obtain ⟨w, hw⟩ := value_repr_total v h.1
    obtain ⟨r, hr⟩ := value_repr_list_total rest h.2
    exact ⟨.cons w r, by
      simp [value_repr_list, hw, hr, Bind.bind, Except.bind, pure, Except.pure]⟩

end

mutual

theorem value_repr_normal (v w : PyValue) (h : value_repr v = .ok w) :
    normalVal w = true := by
  cases v with
  | dict kvs =>
    rw [value_repr, bind_eq_ok] at h
    obtain ⟨r, hr, h⟩ := h
    rw [pure_eq_ok] at h
    subst h
    simpa [normalVal] using value_repr_kvs_normal kvs r hr
  | list items =>
    rw [value_repr, bind_eq_ok] at h
    obtain ⟨r, hr, h⟩ := h
    rw [pure_eq_ok] at h
    subst h
    simpa [normalVal] using value_repr_list_normal items r hr
  | datetime e =>
    rw [value_repr, bind_eq_ok] at h
    obtain ⟨s, _, h⟩ := h
    rw [pure_eq_ok] at h
    subst h
    rfl
  | str s => rw [value_repr, pure_eq_ok] at h; subst h; rfl
  | bool b => rw [value_repr, pure_eq_ok] at h; subst h; rfl
  | int n => rw [value_repr, pure_eq_ok] at h; subst h; rfl
  | float q => rw [value_repr, pure_eq_ok] at h; subst h; rfl
  | none => rw [value_repr, pure_eq_ok] at h; subst h; rfl
  | decimal q => rw [value_repr, pure_eq_ok] at h; subst h; rfl
  | uuid n => rw [value_repr, pure_eq_ok] at h; subst h; rfl
  | tuple items => rw [value_repr, pure_eq_ok] at h; subst h; rfl
  | obj r => rw [value_repr, pure_eq_ok] at h; subst h; rfl
  | excInfo lines => rw [value_repr, pure_eq_ok] at h; subst h; rfl

theorem value_repr_kvs_normal (kvs r : PyKVs) (h : value_repr_kvs kvs = .ok r) :
    normalKVs r = true := by
  cases kvs with
  | nil =>
    rw [value_repr_kvs, pure_eq_ok] at h
    subst h
    rfl
  | cons k v rest =>
    rw [value_repr_kvs, bind_eq_ok] at h
    obtain ⟨w, hw, h⟩ := h
    rw [bind_eq_ok] at h
    obtain ⟨r2, hr2, h⟩ := h
    rw [pure_eq_ok] at h
    subst h
    simp [normalKVs, value_repr_normal v w hw, value_repr_kvs_normal rest r2 hr2]

theorem value_repr_list_normal (items r : PyList) (h : value_repr_list items = .ok r) :
    normalList r = true := by
  cases items with
  | nil =>
    rw [value_repr_list, pure_eq_ok] at h
    subst h
    rfl
  | cons v rest =>
    rw [value_repr_list, bind_eq_ok] at h
    obtain ⟨w, hw, h⟩ := h
    rw [bind_eq_ok] at h
    obtain ⟨r2, hr2, h⟩ := h
    rw [pure_eq_ok] at h
    subst h
    simp [normalList, value_repr_normal v w hw, value_repr_list_normal rest r2 hr2]

end

mutual

theorem normal_fix (v : PyValue) (h : normalVal v = true) : value_repr v = .ok v := by
  cases v with
  | dict kvs =>
    have := normal_fix_kvs kvs (by simpa [normalVal] using h)
    simp [value_repr, this, Bind.bind, Except.bind, pure, Except.pure]
  | list items =>
    have := normal_fix_list items (by simpa [normalVal] using h)
    simp [value_repr, this, Bind.bind, Except.bind, pure, Except.pure]
  | str s => rfl
  | bool b => rfl
  | int n => rfl
  | float q => rfl
  | none => rfl
  | datetime e => simp [normalVal] at h
  | decimal q => simp [normalVal] at h
  | uuid n => simp [normalVal] at h
  | tuple items => simp [normalVal] at h
  | obj r => simp [normalVal] at h
  | excInfo lines => simp [normalVal] at h

theorem normal_fix_kvs (kvs : PyKVs) (h : normalKVs kvs = true) :
    value_repr_kvs kvs = .ok kvs := by
  cases kvs with
  | nil => rfl
  | cons k v rest =>
    simp only [normalKVs, Bool.and_eq_true] at h
    have h1 := normal_fix v h.1
    have h2 := normal_fix_kvs rest h.2
    simp [value_repr_kvs, h1, h2, Bind.bind, Except.bind, pure, Except.pure]

theorem normal_fix_list (items : PyList) (h : normalList items = true) :
    value_repr_list items = .ok items := by
  cases items with
  | nil => rfl
  | cons v rest =>
    simp only [normalList, Bool.and_eq_true] at h
    have h1 := normal_fix v h.1
    have h2 := normal_fix_list rest h.2
    simp [value_repr_list, h1, h2, Bind.bind, Except.bind, pure, Except.pure]

end

mutual

theorem supported_spec (v : PyValue) (h : supportedLeaves v = true) :
    ∃ w, value_repr v = .ok w ∧ sameShape v w = true ∧ normalVal w = true := by
  cases v with
  | dict kvs =>
    obtain ⟨r, hr, hsh, hn⟩ := supported_spec_kvs kvs (by simpa [supportedLeaves] using h)
    refine ⟨.dict r, ?_, ?_, ?_⟩
    · simp [value_repr, hr, Bind.bind, Except.bind, pure, Except.pure]
    · simpa [sameShape] using hsh
    · simpa [normalVal] using hn
  | list items =>
    obtain ⟨r, hr, hsh, hn⟩ := supported_spec_list items (by simpa [supportedLeaves] using h)
    refine ⟨.list r, ?_, ?_, ?_⟩
    · simp [value_repr, hr, Bind.bind, Except.bind, pure, Except.pure]
    · simpa [sameShape] using hsh
    · simpa [normalVal] using hn
  | datetime e =>
    refine ⟨.str (String.mk (stampChars (e * 1000000))), ?_, rfl, rfl⟩
    have he : secInRange e = true := by simpa [supportedLeaves] using h
    simp [value_repr, format_timestamp_int_ok e he, Bind.bind, Except.bind, pure, Except.pure]
  | str s => exact ⟨.str s, rfl, rfl, rfl⟩
  | bool b => exact ⟨.bool b, rfl, rfl, rfl⟩
  | int n => exact ⟨.int n, rfl, rfl, rfl⟩
  | float q => exact ⟨.float q, rfl, rfl, rfl⟩
  | none => exact ⟨.none, rfl, rfl, rfl⟩
  | decimal q => exact ⟨.float q, rfl, rfl, rfl⟩
  | uuid n => exact ⟨.str (uuidHex n), rfl, rfl, rfl⟩
  | tuple items => simp [supportedLeaves] at h
  | obj r => simp [supportedLeaves] at h
  | excInfo lines => simp [supportedLeaves] at h

theorem supported_spec_kvs (kvs : PyKVs) (h : supportedLeavesKVs kvs = true) :
    ∃ r, value_repr_kvs kvs = .ok r ∧ sameShapeKVs kvs r = true ∧ normalKVs r = true := by
  cases kvs with
  | nil => exact ⟨.nil, rfl, rfl, rfl⟩
  | cons k v rest =>
    simp only [supportedLeavesKVs, Bool.and_eq_true] at h
    obtain ⟨w, hw, hsh, hn⟩ := supported_spec v h.1
    obtain ⟨r, hr, hshr, hnr⟩ := supported_spec_kvs rest h.2
    refine ⟨.cons k w r, ?_, ?_, ?_⟩
    · simp [value_repr_kvs, hw, hr, Bind.bind, Except.bind, pure, Except.pure]
    · simp [sameShapeKVs, hsh, hshr]
    · simp [normalKVs, hn, hnr]

theorem supported_spec_list (items : PyList) (h : supportedLeavesList items = true) :
    ∃ r, value_repr_list items = .ok r ∧ sameShapeList items r = true ∧ normalList r = true := by
  cases items with
  | nil => exact ⟨.nil, rfl, rfl, rfl⟩
  | cons v rest =>
    simp only [supportedLeavesList, Bool.and_eq_true] at h
    obtain ⟨w, hw, hsh, hn⟩ := supported_spec v h.1
    obtain ⟨r, hr, hshr, hnr⟩ := supported_spec_list rest h.2
    refine ⟨.cons w r, ?_, ?_, ?_⟩
    · simp [value_repr_list, hw, hr, Bind.bind, Except.bind, pure, Except.pure]
    · simp [sameShapeList, hsh, hshr]
    · simp [normalList, hn, hnr]

end

/-! ## C2: totality of the normalizer and the repr fallback -/

/-- C2: the value normalizer returns a result on every input whose date and
    datetime leaves are representable (every actual Python datetime under a
    UTC clock), and every value outside the supported categories is converted
    to its repr string. -/
theorem claim2_value_repr_total_and_fallback :
    (∀ v : PyValue, datesInRange v = true → ∃ w, value_repr v = .ok w) ∧
    (∀ v : PyValue, unsupportedVal v = true → value_repr v = .ok (.str (pyRepr v))) := by
  constructor
  · exact value_repr_total
  · intro v h
    cases v with
    | tuple items => rfl
    | obj r => rfl
    | excInfo lines => rfl
    | str s => simp [unsupportedVal] at h
    | bool b => simp [unsupportedVal] at h
    | int n => simp [unsupportedVal] at h
    | float q => simp [unsupportedVal] at h
    | none => simp [unsupportedVal] at h
    | dict kvs => simp [unsupportedVal] at h
    | list items => simp [unsupportedVal] at h
    | datetime e => simp [unsupportedVal] at h
    | decimal q => simp [unsupportedVal] at h
    | uuid n => simp [unsupportedVal] at h

/-- Witness for C2: a nested dict holding a representable datetime, and an
    unsupported object falling back to its repr string. -/
theorem claim2_witness :
    (∃ w, value_repr (.dict (.cons "d" (.datetime 0) .nil)) = .ok w) ∧
    value_repr (.obj "<object>") = .ok (.str (pyRepr (.obj "<object>"))) :=
  ⟨claim2_value_repr_total_and_fallback.1 (.dict (.cons "d" (.datetime 0) .nil)) (by decide),
   claim2_value_repr_total_and_fallback.2 (.obj "<object>") (by decide)⟩

/-! ## C6: the sequence branch handles lists only -/

theorem value_repr_list_pointwise (items items2 : PyList)
    (h : value_repr_list items = .ok items2) :
    items2.length = items.length ∧
      ∀ i v, items.get? i = some v →
        ∃ w, value_repr v = .ok w ∧ items2.get? i = some w := by
  cases items with
  | nil =>
    rw [value_repr_list, pure_eq_ok] at h
    subst h
    refine ⟨rfl, ?_⟩
    intro i v hv
    simp [PyList.get?] at hv
  | cons v rest =>
    rw [value_repr_list, bind_eq_ok] at h
    obtain ⟨w, hw, h⟩ := h
    rw [bind_eq_ok] at h
    obtain ⟨r2, hr2, h⟩ := h
    rw [pure_eq_ok] at h
    subst h
    obtain ⟨hlen, hpt⟩ := value_repr_list_pointwise rest r2 hr2
    refine ⟨by simp [PyList.length, hlen], ?_⟩
    intro i v0 hv0
    cases i with
    | zero =>
      rw [PyList.get?] at hv0
      obtain rfl : v = v0 := Option.some.inj hv0
      exact ⟨w, hw, rfl⟩
    | succ j =>
      rw [PyList.get?] at hv0
      obtain ⟨w2, hw2, hg⟩ := hpt j v0 hv0
      exact ⟨w2, hw2, hg⟩

/-- C6 (amended): for every LIST value the normalizer returns a new list of
    the same length whose i-th element is the normalized i-th input element;
    tuples and other non-string sequences are not treated by this branch and
    fall back to the repr string (the source dispatches on list only). -/
theorem claim6_list_branch (items : PyList) (r : PyValue)
    (h : value_repr (.list items) = .ok r) :
    ∃ items2 : PyList, r = .list items2 ∧ items2.length = items.length ∧
      ∀ i v, items.get? i = some v →
        ∃ w, value_repr v = .ok w ∧ items2.get? i = some w := by
  rw [value_repr, bind_eq_ok] at h
  obtain ⟨items2, hi, h⟩ := h
  rw [pure_eq_ok] at h
  subst h
  obtain ⟨hlen, hpt⟩ := value_repr_list_pointwise items items2 hi
  exact ⟨items2, rfl, hlen, hpt⟩

/-- Witness for C6 at the singleton list holding the integer 1. -/
theorem claim6_witness :
    ∃ items2 : PyList, PyValue.list (.cons (.int 1) .nil) = .list items2 ∧
      items2.length = (PyList.cons (.int 1) .nil).length ∧
      ∀ i v, (PyList.cons (.int 1) .nil).get? i = some v →
        ∃ w, value_repr v = .ok w ∧ items2.get? i = some w :=
  claim6_list_branch (.cons (.int 1) .nil) (.list (.cons (.int 1) .nil)) (by rfl)

/-- Counterexample to C6 as stated: the singleton tuple holding 1 is an
    ordered non-string sequence, but the normalizer returns its repr string,
    not a sequence. -/
theorem claim6_counterexample :
    value_repr (.tuple (.cons (.int 1) .nil)) = .ok (.str "(1,)") ∧
    ¬ ∃ items2 : PyList, value_repr (.tuple (.cons (.int 1) .nil)) = .ok (.list items2) := by
  constructor
  · rfl
  · rintro ⟨items2, h⟩
    rw [show value_repr (.tuple (.cons (.int 1) .nil)) = .ok (.str "(1,)") from rfl] at h
    exact PyValue.noConfusion (Except.ok.inj h)

/-! ## C7: idempotence and shape preservation -/

/-- C7: normalization is idempotent (normalizing a normalizer output returns
    it unchanged), and on nested containers of supported leaf types it
    returns a structurally identical container whose leaves are JSON safe. -/
theorem claim7_idempotent_and_shape :
    (∀ v w : PyValue, value_repr v = .ok w → value_repr w = .ok w) ∧
    (∀ v : PyValue, supportedLeaves v = true →
      ∃ w, value_repr v = .ok w ∧ sameShape v w = true ∧ normalVal w = true) := by
  constructor
  · intro v w h
    exact normal_fix w (value_repr_normal v w h)
  · exact supported_spec

/-- Witness for C7: idempotence at a decimal input, and shape preservation at
    a dict holding a list of supported leaves. -/
theorem claim7_witness :
    value_repr (.float 2) = .ok (.float 2) ∧
    ∃ w, value_repr (.dict (.cons "a" (.list (.cons (.uuid 7) (.cons .none .nil))) .nil)) = .ok w ∧
      sameShape (.dict (.cons "a" (.list (.cons (.uuid 7) (.cons .none .nil))) .nil)) w = true ∧
      normalVal w = true :=
  ⟨claim7_idempotent_and_shape.1 (.decimal 2) (.float 2) (by rfl),
   claim7_idempotent_and_shape.2 (.dict (.cons "a" (.list (.cons (.uuid 7) (.cons .none .nil))) .nil))
     (by decide)⟩

/-! ## C9: the serializer fails exactly on JSON-unsafe values -/

mutual

theorem jsonEncode_ok_of_safe (v : PyValue) (h : jsonSafe v = true) :
    ∃ s, jsonEncode v = .ok s := by
  cases v with
  | dict kvs =>
    obtain ⟨s, hs⟩ := jsonEncodeKVs_ok_of_safe kvs (by simpa [jsonSafe] using h)
    refine ⟨"\x7b" ++ s ++ "\x7d", ?_⟩
    simp [jsonEncode, hs, Bind.bind, Except.bind, pure, Except.pure]
  | list items =>
    obtain ⟨s, hs⟩ := jsonEncodeList_ok_of_safe items (by simpa [jsonSafe] using h)
    refine ⟨"[" ++ s ++ "]", ?_⟩
    simp [jsonEncode, hs, Bind.bind, Except.bind, pure, Except.pure]
  | tuple items =>
    obtain ⟨s, hs⟩ := jsonEncodeList_ok_of_safe items (by simpa [jsonSafe] using h)
    refine ⟨"[" ++ s ++ "]", ?_⟩
    simp [jsonEncode, hs, Bind.bind, Except.bind, pure, Except.pure]
  | str s => exact ⟨_, rfl⟩
  | bool b => exact ⟨_, rfl⟩
  | int n => exact ⟨_, rfl⟩
  | float q => exact ⟨_, rfl⟩
  | none => exact ⟨_, rfl⟩
  | datetime e => simp [jsonSafe] at h
  | decimal q => simp [jsonSafe] at h
  | uuid n => simp [jsonSafe] at h
  | obj r => simp [jsonSafe] at h
  | excInfo lines => simp [jsonSafe] at h

theorem jsonEncodeKVs_ok_of_safe (kvs : PyKVs) (h : jsonSafeKVs kvs = true) :
    ∃ s, jsonEncodeKVs kvs = .ok s := by
  cases kvs with
  | nil => exact ⟨"", rfl⟩
  | cons k v rest =>
    simp only [jsonSafeKVs, Bool.and_eq_true] at h
    obtain ⟨s, hs⟩ := jsonEncode_ok_of_safe v h.1
    obtain ⟨r, hr⟩ := jsonEncodeKVs_ok_of_safe rest h.2
    cases rest with
    | nil =>
      refine ⟨jsonString k ++ ": " ++ s, ?_⟩
      simp [jsonEncodeKVs, hs, Bind.bind, Except.bind, pure, Except.pure]
    | cons k2 v2 rest2 =>
      refine ⟨jsonString k ++ ": " ++ s ++ ", " ++ r, ?_⟩
      simp [jsonEncodeKVs, hs, hr, Bind.bind, Except.bind, pure, Except.pure]

theorem jsonEncodeList_ok_of_safe (items : PyList) (h : jsonSafeList items = true) :
    ∃ s, jsonEncodeList items = .ok s := by
  cases items with
  | nil => exact ⟨"", rfl⟩
  | cons v rest =>
    simp only [jsonSafeList, Bool.and_eq_true] at h
    obtain ⟨s, hs⟩ := jsonEncode_ok_of_safe v h.1
    obtain ⟨r, hr⟩ := jsonEncodeList_ok_of_safe rest h.2
    cases rest with
    | nil => exact ⟨s, by simpa [jsonEncodeList] using hs⟩
    | cons v2 rest2 =>
      refine ⟨s ++ ", " ++ r, ?_⟩
      simp [jsonEncodeList, hs, hr, Bind.bind, Except.bind, pure, Except.pure]

end

mutual

theorem safe_of_jsonEncode_ok (v : PyValue) (s : String) (h : jsonEncode v = .ok s) :
    jsonSafe v = true := by
  cases v with
  | dict kvs =>
    rw [jsonEncode, bind_eq_ok] at h
    obtain ⟨s2, hs2, _⟩ := h
    simpa [jsonSafe] using safe_of_jsonEncodeKVs_ok kvs s2 hs2
  | list items =>
    rw [jsonEncode, bind_eq_ok] at h
    obtain ⟨s2, hs2, _⟩ := h
    simpa [jsonSafe] using safe_of_jsonEncodeList_ok items s2 hs2
  | tuple items =>
    rw [jsonEncode, bind_eq_ok] at h
    obtain ⟨s2, hs2, _⟩ := h
    simpa [jsonSafe] using safe_of_jsonEncodeList_ok items s2 hs2
  | str s2 => rfl
  | bool b => rfl
  | int n => rfl
  | float q => rfl
  | none => rfl
  | datetime e => exact absurd h (by simp [jsonEncode])
  | decimal q => exact absurd h (by simp [jsonEncode])
  | uuid n => exact absurd h (by simp [jsonEncode])
  | obj r => exact absurd h (by simp [jsonEncode])
  | excInfo lines => exact absurd h (by simp [jsonEncode])

theorem safe_of_jsonEncodeKVs_ok (kvs : PyKVs) (s : String) (h : jsonEncodeKVs kvs = .ok s) :
    jsonSafeKVs kvs = true := by
  cases kvs with
  | nil => rfl
  | cons k v rest =>
    cases rest with
    | nil =>
      rw [jsonEncodeKVs, bind_eq_ok] at h
      obtain ⟨s2, hs2, _⟩ := h
      simp [jsonSafeKVs, safe_of_jsonEncode_ok v s2 hs2, jsonSafeKVs]
    | cons k2 v2 rest2 =>
      simp only [jsonEncodeKVs] at h
      rw [bind_eq_ok] at h
      obtain ⟨s2, hs2, h⟩ := h
      rw [bind_eq_ok] at h
      obtain ⟨r2, hr2, _⟩ := h
      simp [jsonSafeKVs, safe_of_jsonEncode_ok v s2 hs2] at *
      simpa [jsonSafeKVs] using safe_of_jsonEncodeKVs_ok (.cons k2 v2 rest2) r2 hr2

theorem safe_of_jsonEncodeList_ok (items : PyList) (s : String) (h : jsonEncodeList items = .ok s) :
    jsonSafeList items = true := by
  cases items with
  | nil => rfl
  | cons v rest =>
    cases rest with
    | nil =>
      rw [jsonEncodeList] at h
      simp [jsonSafeList, safe_of_jsonEncode_ok v s h, jsonSafeList]
    | cons v2 rest2 =>
      simp only [jsonEncodeList] at h
      rw [bind_eq_ok] at h
      obtain ⟨s2, hs2, h⟩ := h
      rw [bind_eq_ok] at h
      obtain ⟨r2, hr2, _⟩ := h
      simp [jsonSafeList, safe_of_jsonEncode_ok v s2 hs2] at *
      simpa [jsonSafeList] using safe_of_jsonEncodeList_ok (.cons v2 rest2) r2 hr2

end

theorem jsonEncodeDoc_ok_iff (m : List (String × PyValue)) :
    (∃ s, jsonEncodeDoc m = .ok s) ↔ jsonSafeDoc m = true := by
  induction m with
  | nil => simp [jsonEncodeDoc, jsonSafeDoc, pure, Except.pure]
  | cons kv rest ih =>
    obtain ⟨k, v⟩ := kv
    cases rest with
    | nil =>
      constructor
      · rintro ⟨s, hs⟩
        rw [jsonEncodeDoc, bind_eq_ok] at hs
        obtain ⟨s2, hs2, _⟩ := hs
        simp [jsonSafeDoc, safe_of_jsonEncode_ok v s2 hs2]
      · intro hsafe
        simp only [jsonSafeDoc, List.all_cons, List.all_nil, Bool.and_true] at hsafe
        obtain ⟨s2, hs2⟩ := jsonEncode_ok_of_safe v hsafe
        refine ⟨jsonString k ++ ": " ++ s2, ?_⟩
        simp [jsonEncodeDoc, hs2, Bind.bind, Except.bind, pure, Except.pure]
    | cons kv2 rest2 =>
      constructor
      · rintro ⟨s, hs⟩
        simp only [jsonEncodeDoc] at hs
        rw [bind_eq_ok] at hs
        obtain ⟨s2, hs2, hs⟩ := hs
        rw [bind_eq_ok] at hs
        obtain ⟨r2, hr2, _⟩ := hs
        have h1 := safe_of_jsonEncode_ok v s2 hs2
        have h2 := ih.mp ⟨r2, hr2⟩
        simp only [jsonSafeDoc, List.all_cons, Bool.and_eq_true] at h2 ⊢
        exact ⟨h1, h2⟩
      · intro hsafe
        simp only [jsonSafeDoc, List.all_cons, Bool.and_eq_true] at hsafe
        obtain ⟨s2, hs2⟩ := jsonEncode_ok_of_safe v hsafe.1
        obtain ⟨r2, hr2⟩ := ih.mpr (by simpa [jsonSafeDoc] using hsafe.2)
        refine ⟨jsonString k ++ ": " ++ s2 ++ ", " ++ r2, ?_⟩
        simp [jsonEncodeDoc, hs2, hr2, Bind.bind, Except.bind, pure, Except.pure]

/-- C9: serialization produces the UTF-8 bytes of the JSON text, and it
    surfaces an error to the caller exactly when the document still contains
    a value outside the JSON-safe type set. -/
theorem claim9_serialize (m : List (String × PyValue)) :
    ((∃ e, serialize m = .error e) ↔ jsonSafeDoc m = false) ∧
    (∀ s, jsonEncodeDoc m = .ok s →
      serialize m = .ok (utf8Encode ("\x7b" ++ s ++ "\x7d"))) := by
  constructor
  · constructor
    · rintro ⟨e, he⟩
      by_contra hne
      have hsafe : jsonSafeDoc m = true := by
        cases hb : jsonSafeDoc m
        · exact absurd hb hne
        · rfl
      obtain ⟨s, hs⟩ := (jsonEncodeDoc_ok_iff m).mpr hsafe
      have hser : serialize m = .ok (utf8Encode ("\x7b" ++ s ++ "\x7d")) := by
        simp [serialize, hs, Bind.bind, Except.bind, pure, Except.pure]
      rw [hser] at he
      exact Except.noConfusion he
    · intro huns
      cases hd : jsonEncodeDoc m with
      | ok s =>
        have := (jsonEncodeDoc_ok_iff m).mp ⟨s, hd⟩
        rw [this] at huns
        exact absurd huns (by simp)
      | error e =>
        refine ⟨e, ?_⟩
        simp [serialize, hd, Bind.bind, Except.bind]
  · intro s hs
    simp [serialize, hs, Bind.bind, Except.bind, pure, Except.pure]

/-- Witness for C9 at a concrete one-entry document. -/
theorem claim9_witness :
    serialize [("a", PyValue.int 1)] =
      .ok (utf8Encode ("\x7b" ++ "\"a\": 1" ++ "\x7d")) :=
  (claim9_serialize [("a", PyValue.int 1)]).2 "\"a\": 1" (by rfl)

/-! ## Dictionary lemmas for the version-1 builder -/

theorem lookup_none_iff (d : List (String × PyValue)) (k : String) :
    d.lookup k = none ↔ k ∉ d.map Prod.fst := by
  induction d with
  | nil => simp [List.lookup]
  | cons kv rest ih =>
    obtain ⟨k1, v1⟩ := kv
    by_cases hk : k = k1
    · subst hk
      simp [List.lookup]
    · have hbeq : (k == k1) = false := beq_false_of_ne hk
      simp [List.lookup, hbeq, ih, hk]

theorem lookup_map_replace_self (d : List (String × PyValue)) (k : String) (v : PyValue)
    (h : (d.lookup k).isSome = true) :
    (d.map (fun kv => if kv.1 = k then (k, v) else kv)).lookup k = some v := by
  induction d with
  | nil => simp [List.lookup] at h
  | cons kv rest ih =>
    obtain ⟨k1, v1⟩ := kv
    by_cases hk : k1 = k
    · have hif : (if ((k1, v1) : String × PyValue).1 = k then (k, v) else (k1, v1)) = (k, v) := by
        rw [if_pos]
        exact hk
      rw [List.map_cons, hif]
      simp [List.lookup]
    · have hbeq : (k == k1) = false := beq_false_of_ne (Ne.symm hk)
      simp only [List.lookup, hbeq] at h
      simp only [List.map, if_neg hk]
      simp [List.lookup, hbeq, ih h]

theorem lookup_map_replace_other (d : List (String × PyValue)) (k k2 : String) (v : PyValue)
    (h : k2 ≠ k) :
    (d.map (fun kv => if kv.1 = k then (k, v) else kv)).lookup k2 = d.lookup k2 := by
  induction d with
  | nil => simp [List.lookup]
  | cons kv rest ih =>
    obtain ⟨k1, v1⟩ := kv
    by_cases hk : k1 = k
    · have hif : (if ((k1, v1) : String × PyValue).1 = k then (k, v) else (k1, v1)) = (k, v) := by
        rw [if_pos]
        exact hk
      rw [List.map_cons, hif]
      have hbeq : (k2 == k) = false := beq_false_of_ne h
      have hbeq1 : (k2 == k1) = false := by
        rw [hk]
        exact hbeq
      simp [List.lookup, hbeq, hbeq1, ih]
    · simp only [List.map, if_neg hk]
      by_cases hk2 : k2 = k1
      · subst hk2
        simp [List.lookup]
      · have hbeq : (k2 == k1) = false := beq_false_of_ne hk2
        simp [List.lookup, hbeq, ih]

theorem lookup_append_single_self (d : List (String × PyValue)) (k : String) (v : PyValue)
    (h : d.lookup k = none) :
    (d ++ [(k, v)]).lookup k = some v := by
  induction d with
  | nil => simp [List.lookup]
  | cons kv rest ih =>
    obtain ⟨k1, v1⟩ := kv
    by_cases hk : k = k1
    · subst hk
      simp [List.lookup] at h
    · have hbeq : (k == k1) = false := beq_false_of_ne hk
      simp only [List.lookup, hbeq] at h
      simp [List.cons_append, List.lookup, hbeq, ih h]

theorem lookup_append_single_other (d : List (String × PyValue)) (k k2 : String) (v : PyValue)
    (h : k2 ≠ k) :
    (d ++ [(k, v)]).lookup k2 = d.lookup k2 := by
  induction d with
  | nil =>
    have hbeq : (k2 == k) = false := beq_false_of_ne h
    simp [List.lookup, hbeq]
  | cons kv rest ih =>
    obtain ⟨k1, v1⟩ := kv
    by_cases hk2 : k2 = k1
    · subst hk2
      simp [List.cons_append, List.lookup]
    · have hbeq : (k2 == k1) = false := beq_false_of_ne hk2
      simp [List.cons_append, List.lookup, hbeq, ih]

theorem lookup_dictInsert (d : List (String × PyValue)) (k k2 : String) (v : PyValue) :
    (dictInsert d k v).lookup k2 = if k2 = k then some v else d.lookup k2 := by
  rw [dictInsert]
  by_cases hs : (d.lookup k).isSome = true
  · rw [if_pos hs]
    by_cases hk : k2 = k
    · subst hk
      rw [if_pos rfl]
      exact lookup_map_replace_self d k2 v hs
    · rw [if_neg hk]
      exact lookup_map_replace_other d k k2 v hk
  · rw [if_neg hs]
    have hn : d.lookup k = none := by
      cases hd : d.lookup k
      · rfl
      · rw [hd] at hs
        exact absurd rfl hs
    by_cases hk : k2 = k
    · subst hk
      rw [if_pos rfl]
      exact lookup_append_single_self d k2 v hn
    · rw [if_neg hk]
      exact lookup_append_single_other d k k2 v hk

theorem lookup_dictUpdate (d e : List (String × PyValue))
    (hnd : (e.map Prod.fst).Nodup) (k : String) :
    (dictUpdate d e).lookup k =
      match e.lookup k with
      | some v => some v
      | none => d.lookup k := by
  induction e generalizing d with
  | nil => simp [dictUpdate, List.lookup]
  | cons kv rest ih =>
    obtain ⟨k1, v1⟩ := kv
    simp only [List.map, List.nodup_cons] at hnd
    have hstep : dictUpdate d ((k1, v1) :: rest) = dictUpdate (dictInsert d k1 v1) rest := rfl
    rw [hstep, ih (dictInsert d k1 v1) hnd.2]
    by_cases hk : k = k1
    · subst hk
      have hrest : rest.lookup k = none := (lookup_none_iff rest k).mpr hnd.1
      rw [hrest]
      simp only [List.lookup, beq_self_eq_true]
      rw [lookup_dictInsert, if_pos rfl]
    · have hbeq : (k == k1) = false := beq_false_of_ne hk
      simp only [List.lookup, hbeq]
      cases hr : rest.lookup k
      · rw [lookup_dictInsert, if_neg hk]
      · rfl

theorem keys_nodup_dictInsert (d : List (String × PyValue)) (k : String) (v : PyValue)
    (h : (d.map Prod.fst).Nodup) : ((dictInsert d k v).map Prod.fst).Nodup := by
  rw [dictInsert]
  by_cases hs : (d.lookup k).isSome = true
  · rw [if_pos hs]
    have hkeys : (d.map (fun kv => if kv.1 = k then (k, v) else kv)).map Prod.fst =
        d.map Prod.fst := by
      rw [List.map_map]
      apply List.map_congr_left
      intro kv _
      by_cases hk : kv.1 = k
      · simp [hk]
      · simp [hk]
    rw [hkeys]
    exact h
  · rw [if_neg hs]
    have hn : d.lookup k = none := by
      cases hd : d.lookup k
      · rfl
      · rw [hd] at hs
        exact absurd rfl hs
    have hmem : k ∉ d.map Prod.fst := (lookup_none_iff d k).mp hn
    simp [List.nodup_append, h, hmem]

theorem get_extra_fields_aux_keys_sublist (attrs fields : List (String × PyValue))
    (h : get_extra_fields_aux attrs = .ok fields) :
    (fields.map Prod.fst).Sublist (attrs.map Prod.fst) := by
  induction attrs generalizing fields with
  | nil =>
    simp only [get_extra_fields_aux, pure_eq_ok] at h
    subst h
    simp
  | cons kv rest ih =>
    obtain ⟨k1, v⟩ := kv
    simp only [get_extra_fields_aux] at h
    by_cases hs : k1 ∈ skip_list
    · rw [if_pos hs] at h
      exact (ih fields h).cons k1
    · rw [if_neg hs] at h
      rw [bind_eq_ok] at h
      obtain ⟨w, hw, h⟩ := h
      rw [bind_eq_ok] at h
      obtain ⟨r, hr, h⟩ := h
      rw [pure_eq_ok] at h
      subst h
      exact (ih r hr).cons₂ k1

theorem get_debug_fields_keys_nodup (rec : LogRecord) (dbg : List (String × PyValue))
    (h : get_debug_fields rec = .ok dbg) : (dbg.map Prod.fst).Nodup := by
  rw [get_debug_fields, bind_eq_ok] at h
  obtain ⟨exc, _, h⟩ := h
  rw [bind_eq_ok] at h
  obtain ⟨st, _, h⟩ := h
  rw [bind_eq_ok] at h
  obtain ⟨lineno, _, h⟩ := h
  rw [bind_eq_ok] at h
  obtain ⟨process, _, h⟩ := h
  rw [bind_eq_ok] at h
  obtain ⟨thread, _, h⟩ := h
  have hbase : (([("stack_trace", PyValue.str st), ("lineno", lineno),
      ("process", process), ("thread_name", thread)] :
      List (String × PyValue)).map Prod.fst).Nodup := by
    simp [List.map]
  cases hf : getattrOpt rec "funcName" with
  | none => rw [hf] at h; exact absurd h (by simp [Bind.bind, Except.bind])
  | some func =>
    rw [hf] at h
    rw [bind_eq_ok] at h
    obtain ⟨f1, hf1, h⟩ := h
    rw [pure_eq_ok] at hf1
    have hf1nd : (f1.map Prod.fst).Nodup := by
      rw [← hf1]
      by_cases ht : pyTruthy func
      · rw [if_pos ht]
        exact hbase
      · rw [if_neg ht]
        exact keys_nodup_dictInsert _ _ _ hbase
    cases hp : getattrOpt rec "processName" with
    | none => rw [hp] at h; exact absurd h (by simp [Bind.bind, Except.bind])
    | some procName =>
      rw [hp] at h
      rw [bind_eq_ok] at h
      obtain ⟨f2, hf2, h⟩ := h
      rw [pure_eq_ok] at hf2 h
      subst h
      rw [← hf2]
      by_cases ht : pyTruthy procName
      · rw [if_pos ht]
        exact hf1nd
      · rw [if_neg ht]
        exact keys_nodup_dictInsert _ _ _ hf1nd

theorem v1Message_eval (cfg : FormatterConfig) (rec : LogRecord) (created : PyValue)
    (c : Rat) (ts : String) (path lvl nm exc : PyValue) (extras : List (String × PyValue))
    (h1 : rec.attrs.lookup "created" = some created)
    (h2 : pyNumToRat created = .ok c)
    (h3 : format_timestamp c = .ok ts)
    (h4 : rec.attrs.lookup "pathname" = some path)
    (h5 : rec.attrs.lookup "levelname" = some lvl)
    (h6 : rec.attrs.lookup "name" = some nm)
    (h7 : get_extra_fields rec = .ok extras)
    (h8 : rec.attrs.lookup "exc_info" = some exc)
    (h9 : pyTruthy exc = false) :
    v1Message cfg rec = .ok (dictUpdate (v1Base cfg rec ts path lvl nm) extras) := by
  simp only [v1Message, getattrE, Bind.bind, Except.bind, h1, h2, h3, h4, h5, h6, h7, h8, h9,
    pure, Except.pure, Bool.false_eq_true, if_false]

/-! ## C4: the version-1 document -/

/-- C4: a successful version-1 build produces the base mapping (whose keys
    include the nine schema fields and which binds the version key to the
    constant string 1), updated with the extras mapping and then, exactly when
    the record holds a truthy exc_info, with the debug mapping; lookups obey
    the last-write-wins chain, and without exception context the document
    holds no key beyond the base and extras ones. -/
theorem claim4_v1_document (cfg : FormatterConfig) (rec : LogRecord)
    (hnd : (rec.attrs.map Prod.fst).Nodup)
    (msg : List (String × PyValue)) (h : v1Message cfg rec = .ok msg) :
    ∃ ts path lvl nm extras exc,
      get_extra_fields rec = .ok extras ∧
      rec.attrs.lookup "exc_info" = some exc ∧
      (v1Base cfg rec ts path lvl nm).lookup "@version" = some (.str "1") ∧
      (∀ k, k ∈ ["@timestamp", "@version", "message", "host", "path",
                 "tags", "type", "level", "logger_name"] →
        (msg.lookup k).isSome = true) ∧
      (pyTruthy exc = true →
        ∃ dbg, get_debug_fields rec = .ok dbg ∧
          msg = dictUpdate (dictUpdate (v1Base cfg rec ts path lvl nm) extras) dbg ∧
          ∀ k, msg.lookup k =
            match dbg.lookup k with
            | some v => some v
            | none =>
              match extras.lookup k with
              | some v => some v
              | none => (v1Base cfg rec ts path lvl nm).lookup k) ∧
      (pyTruthy exc = false →
        msg = dictUpdate (v1Base cfg rec ts path lvl nm) extras ∧
        (∀ k, msg.lookup k =
          match extras.lookup k with
          | some v => some v
          | none => (v1Base cfg rec ts path lvl nm).lookup k) ∧
        ∀ k, (msg.lookup k).isSome = true →
          ((v1Base cfg rec ts path lvl nm).lookup k).isSome = true ∨
            (extras.lookup k).isSome = true) := by
  rw [v1Message, bind_eq_ok] at h
  obtain ⟨created, hcr, h⟩ := h
  rw [bind_eq_ok] at h
  obtain ⟨c, hc, h⟩ := h
  rw [bind_eq_ok] at h
  obtain ⟨ts, hts, h⟩ := h
  rw [bind_eq_ok] at h
  obtain ⟨path, hpath, h⟩ := h
  rw [bind_eq_ok] at h
  obtain ⟨lvl, hlvl, h⟩ := h
  rw [bind_eq_ok] at h
  obtain ⟨nm, hnm, h⟩ := h
  rw [bind_eq_ok] at h
  obtain ⟨extras, hex, h⟩ := h
  rw [bind_eq_ok] at h
  obtain ⟨exc, hexc, h⟩ := h
  have hexc2 : rec.attrs.lookup "exc_info" = some exc := by
    rw [getattrE] at hexc
    cases hl : rec.attrs.lookup "exc_info"
    · rw [hl] at hexc
      exact Except.noConfusion hexc
    · rw [hl] at hexc
      exact congrArg some (Except.ok.inj hexc)
  have hexnd : (extras.map Prod.fst).Nodup :=
    (get_extra_fields_aux_keys_sublist rec.attrs extras hex).nodup hnd
  have hbase9 : ∀ k, k ∈ (["@timestamp", "@version", "message", "host", "path",
      "tags", "type", "level", "logger_name"] : List String) →
      ((v1Base cfg rec ts path lvl nm).lookup k).isSome = true := by
    intro k hk
    fin_cases hk <;> rfl
  refine ⟨ts, path, lvl, nm, extras, exc, hex, hexc2, rfl, ?_, ?_, ?_⟩
  · intro k hk
    by_cases he : pyTruthy exc
    · rw [if_pos he, bind_eq_ok] at h
      obtain ⟨dbg, hdbg, h⟩ := h
      rw [pure_eq_ok] at h
      subst h
      have hdnd := get_debug_fields_keys_nodup rec dbg hdbg
      rw [lookup_dictUpdate _ _ hdnd, lookup_dictUpdate _ _ hexnd]
      cases hd : dbg.lookup k
      · cases hx : extras.lookup k
        · exact hbase9 k hk
        · rfl
      · rfl
    · rw [if_neg he, pure_eq_ok] at h
      subst h
      rw [lookup_dictUpdate _ _ hexnd]
      cases hx : extras.lookup k
      · exact hbase9 k hk
      · rfl
  · intro he
    rw [if_pos he, bind_eq_ok] at h
    obtain ⟨dbg, hdbg, h⟩ := h
    rw [pure_eq_ok] at h
    subst h
    have hdnd := get_debug_fields_keys_nodup rec dbg hdbg
    refine ⟨dbg, hdbg, rfl, ?_⟩
    intro k
    rw [lookup_dictUpdate _ _ hdnd, lookup_dictUpdate _ _ hexnd]
  · intro he
    rw [if_neg (by rw [he]; exact Bool.false_ne_true), pure_eq_ok] at h
    subst h
    refine ⟨rfl, ?_, ?_⟩
    · intro k
      rw [lookup_dictUpdate _ _ hexnd]
    · intro k hk
      rw [lookup_dictUpdate _ _ hexnd] at hk
      cases hx : extras.lookup k
      · rw [hx] at hk
        exact Or.inl hk
      · exact Or.inr rfl

/-- Witness for C4 at a concrete record without exception context. -/
theorem claim4_witness :
    ∃ ts path lvl nm extras exc,
      get_extra_fields
        { attrs := [("created", PyValue.int 0), ("pathname", PyValue.str "/p"),
                    ("levelname", PyValue.str "INFO"), ("name", PyValue.str "root"),
                    ("exc_info", PyValue.none)], rendered := "hello" } = .ok extras ∧
      (({ attrs := [("created", PyValue.int 0), ("pathname", PyValue.str "/p"),
                    ("levelname", PyValue.str "INFO"), ("name", PyValue.str "root"),
                    ("exc_info", PyValue.none)], rendered := "hello" } : LogRecord)).attrs.lookup
        "exc_info" = some exc ∧
      (v1Base { host := "h" }
        { attrs := [("created", PyValue.int 0), ("pathname", PyValue.str "/p"),
                    ("levelname", PyValue.str "INFO"), ("name", PyValue.str "root"),
                    ("exc_info", PyValue.none)], rendered := "hello" }
        ts path lvl nm).lookup "@version" = some (.str "1") ∧
      (∀ k, k ∈ ["@timestamp", "@version", "message", "host", "path",
                 "tags", "type", "level", "logger_name"] →
        ((dictUpdate (v1Base { host := "h" }
          { attrs := [("created", PyValue.int 0), ("pathname", PyValue.str "/p"),
                      ("levelname", PyValue.str "INFO"), ("name", PyValue.str "root"),
                      ("exc_info", PyValue.none)], rendered := "hello" }
          "1970-01-01T00:00:00.000Z" (PyValue.str "/p") (PyValue.str "INFO")
          (PyValue.str "root")) []).lookup k).isSome = true) ∧
      (pyTruthy exc = true →
        ∃ dbg, get_debug_fields
            { attrs := [("created", PyValue.int 0), ("pathname", PyValue.str "/p"),
                        ("levelname", PyValue.str "INFO"), ("name", PyValue.str "root"),
                        ("exc_info", PyValue.none)], rendered := "hello" } = .ok dbg ∧
          dictUpdate (v1Base { host := "h" }
            { attrs := [("created", PyValue.int 0), ("pathname", PyValue.str "/p"),
                        ("levelname", PyValue.str "INFO"), ("name", PyValue.str "root"),
                        ("exc_info", PyValue.none)], rendered := "hello" }
            "1970-01-01T00:00:00.000Z" (PyValue.str "/p") (PyValue.str "INFO")
            (PyValue.str "root")) [] =
            dictUpdate (dictUpdate (v1Base { host := "h" }
              { attrs := [("created", PyValue.int 0), ("pathname", PyValue.str "/p"),
                          ("levelname", PyValue.str "INFO"), ("name", PyValue.str "root"),
                          ("exc_info", PyValue.none)], rendered := "hello" }
              ts path lvl nm) extras) dbg ∧
          ∀ k, (dictUpdate (v1Base { host := "h" }
              { attrs := [("created", PyValue.int 0), ("pathname", PyValue.str "/p"),
                          ("levelname", PyValue.str "INFO"), ("name", PyValue.str "root"),
                          ("exc_info", PyValue.none)], rendered := "hello" }
              "1970-01-01T00:00:00.000Z" (PyValue.str "/p") (PyValue.str "INFO")
              (PyValue.str "root")) []).lookup k =
            match dbg.lookup k with
            | some v => some v
            | none =>
              match extras.lookup k with
              | some v => some v
              | none => (v1Base { host := "h" }
                  { attrs := [("created", PyValue.int 0), ("pathname", PyValue.str "/p"),
                              ("levelname", PyValue.str "INFO"), ("name", PyValue.str "root"),
                              ("exc_info", PyValue.none)], rendered := "hello" }
                  ts path lvl nm).lookup k) ∧
      (pyTruthy exc = false →
        dictUpdate (v1Base { host := "h" }
          { attrs := [("created", PyValue.int 0), ("pathname", PyValue.str "/p"),
                      ("levelname", PyValue.str "INFO"), ("name", PyValue.str "root"),
                      ("exc_info", PyValue.none)], rendered := "hello" }
          "1970-01-01T00:00:00.000Z" (PyValue.str "/p") (PyValue.str "INFO")
          (PyValue.str "root")) [] =
          dictUpdate (v1Base { host := "h" }
            { attrs := [("created", PyValue.int 0), ("pathname", PyValue.str "/p"),
                        ("levelname", PyValue.str "INFO"), ("name", PyValue.str "root"),
                        ("exc_info", PyValue.none)], rendered := "hello" }
            ts path lvl nm) extras ∧
        (∀ k, (dictUpdate (v1Base { host := "h" }
            { attrs := [("created", PyValue.int 0), ("pathname", PyValue.str "/p"),
                        ("levelname", PyValue.str "INFO"), ("name", PyValue.str "root"),
                        ("exc_info", PyValue.none)], rendered := "hello" }
            "1970-01-01T00:00:00.000Z" (PyValue.str "/p") (PyValue.str "INFO")
            (PyValue.str "root")) []).lookup k =
          match extras.lookup k with
          | some v => some v
          | none => (v1Base { host := "h" }
              { attrs := [("created", PyValue.int 0), ("pathname", PyValue.str "/p"),
                          ("levelname", PyValue.str "INFO"), ("name", PyValue.str "root"),
                          ("exc_info", PyValue.none)], rendered := "hello" }
              ts path lvl nm).lookup k) ∧
        ∀ k, ((dictUpdate (v1Base { host := "h" }
            { attrs := [("created", PyValue.int 0), ("pathname", PyValue.str "/p"),
                        ("levelname", PyValue.str "INFO"), ("name", PyValue.str "root"),
                        ("exc_info", PyValue.none)], rendered := "hello" }
            "1970-01-01T00:00:00.000Z" (PyValue.str "/p") (PyValue.str "INFO")
            (PyValue.str "root")) []).lookup k).isSome = true →
          ((v1Base { host := "h" }
            { attrs := [("created", PyValue.int 0), ("pathname", PyValue.str "/p"),
                        ("levelname", PyValue.str "INFO"), ("name", PyValue.str "root"),
                        ("exc_info", PyValue.none)], rendered := "hello" }
            ts path lvl nm).lookup k).isSome = true ∨
            (extras.lookup k).isSome = true) :=
  claim4_v1_document { host := "h" }
    { attrs := [("created", PyValue.int 0), ("pathname", PyValue.str "/p"),
                ("levelname", PyValue.str "INFO"), ("name", PyValue.str "root"),
                ("exc_info", PyValue.none)], rendered := "hello" }
    (by decide)
    (dictUpdate (v1Base { host := "h" }
      { attrs := [("created", PyValue.int 0), ("pathname", PyValue.str "/p"),
                  ("levelname", PyValue.str "INFO"), ("name", PyValue.str "root"),
                  ("exc_info", PyValue.none)], rendered := "hello" }
      "1970-01-01T00:00:00.000Z" (PyValue.str "/p") (PyValue.str "INFO") (PyValue.str "root")) [])
    (v1Message_eval _ _ (PyValue.int 0) ((0 : Int) : Rat) "1970-01-01T00:00:00.000Z"
      (PyValue.str "/p") (PyValue.str "INFO") (PyValue.str "root") PyValue.none []
      (by rfl) (by rfl)
      (by rw [format_timestamp_int_ok 0 (by decide)]; decide)
      (by rfl) (by rfl) (by rfl) (by rfl) (by rfl) (by rfl))

/-! ## C5 and C10: the debug-field builder -/


/-- C5 (amended): on a record with a truthy exception triple and with
    funcName and processName attributes present, get_debug_fields returns
    stack_trace (the joined traceback lines), lineno, process and thread_name
    taken from the record, plus a funcName binding exactly when funcName is
    falsy and a processName binding exactly when processName is falsy. -/
theorem claim5_debug_fields (rec : LogRecord) (lines : List String)
    (lineno process thread func procName : PyValue)
    (hexc : rec.attrs.lookup "exc_info" = some (.excInfo lines))
    (hline : rec.attrs.lookup "lineno" = some lineno)
    (hproc : rec.attrs.lookup "process" = some process)
    (hthread : rec.attrs.lookup "threadName" = some thread)
    (hfunc : rec.attrs.lookup "funcName" = some func)
    (hpn : rec.attrs.lookup "processName" = some procName) :
    get_debug_fields rec = .ok
      ((if pyTruthy func then
          [("stack_trace", PyValue.str (String.join lines)), ("lineno", lineno),
           ("process", process), ("thread_name", thread)]
        else
          [("stack_trace", PyValue.str (String.join lines)), ("lineno", lineno),
           ("process", process), ("thread_name", thread), ("funcName", func)]) ++
        (if pyTruthy procName then [] else [("processName", procName)])) := by
  rw [get_debug_fields]
  rw [getattrE, hexc]
  have hfe : format_exception (.excInfo lines) = .ok (String.join lines) := by
    simp [format_exception, pyTruthy]
  simp only [Bind.bind, Except.bind, hfe]
  rw [getattrE, hline, getattrE, hproc, getattrE, hthread]
  rw [getattrOpt, hfunc, getattrOpt, hpn]
  by_cases hf : pyTruthy func
  · simp only [hf, if_true, if_pos]
    by_cases hp : pyTruthy procName
    · simp [hp, pure, Except.pure]
    · simp [hp, pure, Except.pure, dictInsert, List.lookup]
  · simp only [hf, if_false, if_neg, Bool.false_eq_true]
    have hins : dictInsert
        [("stack_trace", PyValue.str (String.join lines)), ("lineno", lineno),
         ("process", process), ("thread_name", thread)] "funcName" func =
        [("stack_trace", PyValue.str (String.join lines)), ("lineno", lineno),
         ("process", process), ("thread_name", thread), ("funcName", func)] := by
      simp [dictInsert, List.lookup]
    rw [hins]
    by_cases hp : pyTruthy procName
    · simp [hp, pure, Except.pure]
    · have hins2 : dictInsert
          [("stack_trace", PyValue.str (String.join lines)), ("lineno", lineno),
           ("process", process), ("thread_name", thread), ("funcName", func)]
          "processName" procName =
          [("stack_trace", PyValue.str (String.join lines)), ("lineno", lineno),
           ("process", process), ("thread_name", thread), ("funcName", func),
           ("processName", procName)] := by
        simp [dictInsert, List.lookup]
      simp [hp, hins2, pure, Except.pure]

/-- Witness for C5 at a record whose funcName and processName are truthy. -/
theorem claim5_witness :
    get_debug_fields
      { attrs := [("exc_info", PyValue.excInfo ["Boom\n"]), ("lineno", PyValue.int 5),
                  ("process", PyValue.int 77), ("threadName", PyValue.str "MainThread"),
                  ("funcName", PyValue.str "f"), ("processName", PyValue.str "MainProcess")],
        rendered := "m" } = .ok
      ((if pyTruthy (PyValue.str "f") then
          [("stack_trace", PyValue.str (String.join ["Boom\n"])), ("lineno", PyValue.int 5),
           ("process", PyValue.int 77), ("thread_name", PyValue.str "MainThread")]
        else
          [("stack_trace", PyValue.str (String.join ["Boom\n"])), ("lineno", PyValue.int 5),
           ("process", PyValue.int 77), ("thread_name", PyValue.str "MainThread"),
           ("funcName", PyValue.str "f")]) ++
        (if pyTruthy (PyValue.str "MainProcess") then []
         else [("processName", PyValue.str "MainProcess")])) :=
  claim5_debug_fields
    { attrs := [("exc_info", PyValue.excInfo ["Boom\n"]), ("lineno", PyValue.int 5),
                ("process", PyValue.int 77), ("threadName", PyValue.str "MainThread"),
                ("funcName", PyValue.str "f"), ("processName", PyValue.str "MainProcess")],
      rendered := "m" }
    ["Boom\n"] (PyValue.int 5) (PyValue.int 77) (PyValue.str "MainThread")
    (PyValue.str "f") (PyValue.str "MainProcess")
    (by rfl) (by rfl) (by rfl) (by rfl) (by rfl) (by rfl)

/-- Counterexample to C5 as stated: a record with exception context whose
    funcName attribute is present but falsy (the empty string) produces a
    fifth key, funcName, so the result does not have exactly the four
    claimed keys. -/
theorem claim5_counterexample :
    get_debug_fields
      { attrs := [("exc_info", PyValue.excInfo ["Boom\n"]), ("lineno", PyValue.int 5),
                  ("process", PyValue.int 77), ("threadName", PyValue.str "MainThread"),
                  ("funcName", PyValue.str ""), ("processName", PyValue.str "MainProcess")],
        rendered := "m" } = .ok
      [("stack_trace", PyValue.str "Boom\n"), ("lineno", PyValue.int 5),
       ("process", PyValue.int 77), ("thread_name", PyValue.str "MainThread"),
       ("funcName", PyValue.str "")] ∧
    ([("stack_trace", PyValue.str "Boom\n"), ("lineno", PyValue.int 5),
      ("process", PyValue.int 77), ("thread_name", PyValue.str "MainThread"),
      ("funcName", PyValue.str "")].map Prod.fst ≠
      ["stack_trace", "lineno", "process", "thread_name"]) := by
  constructor
  · rfl
  · decide

/-- C10: a record that carries exception context but has no processName
    attribute at all makes get_debug_fields raise AttributeError: the guard
    sees the falsy getattr default and the direct attribute read fails. -/
theorem claim10_missing_processName (rec : LogRecord) (lines : List String)
    (lineno process thread func : PyValue)
    (hexc : rec.attrs.lookup "exc_info" = some (.excInfo lines))
    (hline : rec.attrs.lookup "lineno" = some lineno)
    (hproc : rec.attrs.lookup "process" = some process)
    (hthread : rec.attrs.lookup "threadName" = some thread)
    (hfunc : rec.attrs.lookup "funcName" = some func)
    (hpn : rec.attrs.lookup "processName" = none) :
    get_debug_fields rec = .error .attributeError := by
  rw [get_debug_fields]
  rw [getattrE, hexc]
  have hfe : format_exception (.excInfo lines) = .ok (String.join lines) := by
    simp [format_exception, pyTruthy]
  simp only [Bind.bind, Except.bind, hfe]
  rw [getattrE, hline, getattrE, hproc, getattrE, hthread]
  rw [getattrOpt, hfunc, getattrOpt, hpn]
  by_cases hf : pyTruthy func <;> simp [hf, pure, Except.pure]

/-- Witness for C10 at a concrete record lacking processName. -/
theorem claim10_witness :
    get_debug_fields
      { attrs := [("exc_info", PyValue.excInfo ["tb"]), ("lineno", PyValue.int 3),
                  ("process", PyValue.int 9), ("threadName", PyValue.str "T"),
                  ("funcName", PyValue.str "f")],
        rendered := "m" } = .error .attributeError :=
  claim10_missing_processName
    { attrs := [("exc_info", PyValue.excInfo ["tb"]), ("lineno", PyValue.int 3),
                ("process", PyValue.int 9), ("threadName", PyValue.str "T"),
                ("funcName", PyValue.str "f")],
      rendered := "m" }
    ["tb"] (PyValue.int 3) (PyValue.int 9) (PyValue.str "T") (PyValue.str "f")
    (by rfl) (by rfl) (by rfl) (by rfl) (by rfl) (by rfl)

/-! ## Calendar lemmas -/

theorem isLeap_iff (y : Nat) :
    isLeap y = true ↔ (y % 4 = 0 ∧ (y % 100 ≠ 0 ∨ y % 400 = 0)) := by
  simp [isLeap, Bool.and_eq_true, Bool.or_eq_true, beq_iff_eq, bne_iff_ne]

theorem ite_and_bit (p q : Prop) [Decidable p] [Decidable q] :
    (if p ∧ q then (1 : Nat) else 0) = (if p then (if q then (1 : Nat) else 0) else 0) := by
  by_cases hp : p <;> by_cases hq : q <;> simp [hp, hq]

theorem ite_pair {α β : Type} (c : Prop) [Decidable c] (a : α) (p q : β) :
    (if c then (a, p) else (a, q)) = (a, if c then p else q) := by
  split <;> rfl

set_option maxHeartbeats 3200000 in
theorem month_decode (b r4 m2 d2 : Nat) (hb : b ≤ 1) (h365 : r4 < 365)
    (heq : (if r4 < DAYS_BEFORE_MONTH ((r4 + 50) / 32) +
          (if 2 < (r4 + 50) / 32 then b else 0) then
        ((r4 + 50) / 32 - 1,
          r4 - (DAYS_BEFORE_MONTH ((r4 + 50) / 32) +
              (if 2 < (r4 + 50) / 32 then b else 0) -
            (DAYS_IN_MONTH ((r4 + 50) / 32 - 1) +
              (if (r4 + 50) / 32 - 1 = 2 then b else 0))) + 1)
      else
        ((r4 + 50) / 32,
          r4 - (DAYS_BEFORE_MONTH ((r4 + 50) / 32) +
            (if 2 < (r4 + 50) / 32 then b else 0)) + 1)) = (m2, d2)) :
    DAYS_BEFORE_MONTH m2 + (if 2 < m2 then b else 0) + d2 = r4 + 1 ∧
      1 ≤ m2 ∧ m2 ≤ 12 ∧ 1 ≤ d2 ∧
      d2 ≤ DAYS_IN_MONTH m2 + (if m2 = 2 then b else 0) := by
  obtain ⟨m0, hm0⟩ : ∃ q, (r4 + 50) / 32 = q := ⟨_, rfl⟩
  rw [hm0] at heq
  have hm12 : m0 = 1 ∨ m0 = 2 ∨ m0 = 3 ∨ m0 = 4 ∨ m0 = 5 ∨ m0 = 6 ∨ m0 = 7 ∨
      m0 = 8 ∨ m0 = 9 ∨ m0 = 10 ∨ m0 = 11 ∨ m0 = 12 := by omega
  rcases hm12 with hm|hm|hm|hm|hm|hm|hm|hm|hm|hm|hm|hm <;>
    subst hm <;>
    (try simp [DAYS_BEFORE_MONTH, DAYS_IN_MONTH] at heq) <;>
    (try split at heq) <;>
    (try simp only [Prod.mk.injEq] at heq) <;>
    obtain ⟨hm2, hd2⟩ := heq <;>
    subst hm2 <;>
    subst hd2 <;>
    (try simp [DAYS_BEFORE_MONTH, DAYS_IN_MONTH]) <;>
    omega

set_option maxHeartbeats 3200000 in
theorem ord2ymd_spec (n y m d : Nat) (h1 : 1 ≤ n) (h2 : n ≤ 3652059)
    (heq : ord2ymd n = (y, m, d)) :
    ymd2ord y m d = n ∧ 1 ≤ y ∧ y ≤ 9999 ∧ 1 ≤ m ∧ m ≤ 12 ∧
      1 ≤ d ∧ d ≤ daysInMonthY y m := by
  simp only [ord2ymd] at heq
  obtain ⟨n400, hn400⟩ : ∃ q, (n - 1) / 146097 = q := ⟨_, rfl⟩
  obtain ⟨r1, hr1⟩ : ∃ q, (n - 1) % 146097 = q := ⟨_, rfl⟩
  rw [hn400, hr1] at heq
  obtain ⟨n100, hn100⟩ : ∃ q, r1 / 36524 = q := ⟨_, rfl⟩
  obtain ⟨r2, hr2⟩ : ∃ q, r1 % 36524 = q := ⟨_, rfl⟩
  rw [hn100, hr2] at heq
  obtain ⟨n4, hn4⟩ : ∃ q, r2 / 1461 = q := ⟨_, rfl⟩
  obtain ⟨r3, hr3⟩ : ∃ q, r2 % 1461 = q := ⟨_, rfl⟩
  rw [hn4, hr3] at heq
  obtain ⟨n1, hn1⟩ : ∃ q, r3 / 365 = q := ⟨_, rfl⟩
  obtain ⟨r4, hr4⟩ : ∃ q, r3 % 365 = q := ⟨_, rfl⟩
  rw [hn1, hr4] at heq
  have e1 : n - 1 = 146097 * n400 + r1 ∧ r1 < 146097 := by omega
  have e2 : r1 = 36524 * n100 + r2 ∧ r2 < 36524 := by omega
  have e3 : r2 = 1461 * n4 + r3 ∧ r3 < 1461 := by omega
  have e4 : r3 = 365 * n1 + r4 ∧ r4 < 365 := by omega
  clear hn400 hr1 hn100 hr2 hn4 hr3 hn1 hr4
  obtain ⟨e1, f1⟩ := e1
  obtain ⟨e2, f2⟩ := e2
  obtain ⟨e3, f3⟩ := e3
  obtain ⟨e4, f4⟩ := e4
  have hleq : isLeap (n400 * 400 + n100 * 100 + n4 * 4 + n1 + 1) = true ↔
      (n1 = 3 ∧ (n4 ≠ 24 ∨ n100 = 3)) := by
    rw [isLeap_iff]
    omega
  by_cases hsp : n1 = 4 ∨ n100 = 4
  · rw [if_pos hsp] at heq
    simp only [Prod.mk.injEq] at heq
    obtain ⟨hy, hm, hd⟩ := heq
    subst hy
    subst hm
    subst hd
    have hly : isLeap (n400 * 400 + n100 * 100 + n4 * 4 + n1 + 1 - 1) = true := by
      rw [isLeap_iff]
      rcases hsp with hsp | hsp <;> omega
    simp only [ymd2ord, daysBeforeYear, daysBeforeMonthY, daysInMonthY,
      DAYS_BEFORE_MONTH, DAYS_IN_MONTH, hly]
    norm_num
    rcases hsp with hsp | hsp
    · have hd4 : (n400 * 400 + n100 * 100 + n4 * 4 + n1 - 1) / 4 =
          100 * n400 + 25 * n100 + n4 := by omega
      have hd100 : (n400 * 400 + n100 * 100 + n4 * 4 + n1 - 1) / 100 =
          4 * n400 + n100 := by omega
      have hd400 : (n400 * 400 + n100 * 100 + n4 * 4 + n1 - 1) / 400 = n400 := by omega
      rw [hd4, hd100, hd400]
      omega
    · have hd4 : (n400 * 400 + n100 * 100 + n4 * 4 + n1 - 1) / 4 =
          100 * n400 + 99 := by omega
      have hd100 : (n400 * 400 + n100 * 100 + n4 * 4 + n1 - 1) / 100 =
          4 * n400 + 3 := by omega
      have hd400 : (n400 * 400 + n100 * 100 + n4 * 4 + n1 - 1) / 400 = n400 := by omega
      rw [hd4, hd100, hd400]
      omega
  · rw [if_neg hsp] at heq
    have hn1ne : n1 ≠ 4 := fun hc => hsp (Or.inl hc)
    have hn100ne : n100 ≠ 4 := fun hc => hsp (Or.inr hc)
    clear hsp
    have hd4 : (n400 * 400 + n100 * 100 + n4 * 4 + n1) / 4 =
        100 * n400 + 25 * n100 + n4 := by omega
    have hd100 : (n400 * 400 + n100 * 100 + n4 * 4 + n1) / 100 =
        4 * n400 + n100 := by omega
    have hd400 : (n400 * 400 + n100 * 100 + n4 * 4 + n1) / 400 = n400 := by omega
    simp only [ite_and_bit] at heq
    obtain ⟨b, hbdef⟩ :
        ∃ t, (if n1 = 3 then (if n4 ≠ 24 ∨ n100 = 3 then (1 : Nat) else 0) else 0) = t :=
      ⟨_, rfl⟩
    rw [hbdef] at heq
    have hb : b ≤ 1 := by
      rw [← hbdef]
      by_cases h3 : n1 = 3 <;> by_cases h4 : (n4 ≠ 24 ∨ n100 = 3) <;> simp [h3, h4]
    rw [ite_pair] at heq
    simp only [Prod.mk.injEq] at heq
    obtain ⟨hy, hrest⟩ := heq
    have hmd := month_decode b r4 m d hb f4 hrest
    subst hy
    have hby : (if isLeap (n400 * 400 + n100 * 100 + n4 * 4 + n1 + 1) = true
        then (1 : Nat) else 0) = b := by
      rw [← hbdef]
      by_cases hc : n1 = 3 ∧ (n4 ≠ 24 ∨ n100 = 3)
      · rw [if_pos (hleq.mpr hc), if_pos hc.1, if_pos hc.2]
      · rw [if_neg (fun hx => hc (hleq.mp hx))]
        by_cases hc1 : n1 = 3
        · have hc2 : ¬(n4 ≠ 24 ∨ n100 = 3) := fun hx => hc ⟨hc1, hx⟩
          rw [if_pos hc1, if_neg hc2]
        · rw [if_neg hc1]
    have hdm : daysInMonthY (n400 * 400 + n100 * 100 + n4 * 4 + n1 + 1) m =
        DAYS_IN_MONTH m + (if m = 2 then b else 0) := by
      rw [← hbdef, daysInMonthY]
      by_cases hm2 : m = 2
      · by_cases hc : n1 = 3 ∧ (n4 ≠ 24 ∨ n100 = 3)
        · rw [if_pos ⟨hm2, hleq.mpr hc⟩, hm2, if_pos rfl, if_pos hc.1, if_pos hc.2]
          decide
        · rw [if_neg (fun hx => hc (hleq.mp hx.2)), hm2, if_pos rfl]
          by_cases hc1 : n1 = 3
          · have hc2 : ¬(n4 ≠ 24 ∨ n100 = 3) := fun hx => hc ⟨hc1, hx⟩
            rw [if_pos hc1, if_neg hc2]
            decide
          · rw [if_neg hc1]
            decide
      · rw [if_neg (fun hx => hm2 hx.1), if_neg hm2]
        rfl
    obtain ⟨t, ht⟩ : ∃ t, (if 2 < m then b else 0) = t := ⟨_, rfl⟩
    rw [ht] at hmd
    obtain ⟨hsum, hm1, hm12b, hd1, hdle⟩ := hmd
    refine ⟨?_, by omega, by omega, hm1, hm12b, hd1, ?_⟩
    · rw [ymd2ord, daysBeforeYear, daysBeforeMonthY, ite_and_bit, hby, ht]
      simp only [Nat.add_sub_cancel]
      rw [hd4, hd100, hd400]
      omega
    · rw [hdm]
      exact hdle

theorem dby_succ (y : Nat) (h : 1 ≤ y) :
    daysBeforeYear (y + 1) =
      daysBeforeYear y + 365 + (if isLeap y then 1 else 0) := by
  by_cases hl : isLeap y = true
  · rw [if_pos hl]
    rw [isLeap_iff] at hl
    obtain ⟨hl1, hl2⟩ := hl
    simp only [daysBeforeYear, Nat.add_sub_cancel]
    rcases hl2 with hl2 | hl2 <;> omega
  · rw [if_neg hl]
    rw [isLeap_iff] at hl
    simp only [daysBeforeYear, Nat.add_sub_cancel]
    by_cases h4 : y % 4 = 0
    · have h100 : y % 100 = 0 := by
        by_contra hno
        exact hl ⟨h4, Or.inl hno⟩
      have h400 : y % 400 ≠ 0 := by
        intro h400
        exact hl ⟨h4, Or.inr h400⟩
      omega
    · omega

theorem dby_mono (y1 y2 : Nat) (h0 : 1 ≤ y1) (h : y1 ≤ y2) :
    daysBeforeYear y1 ≤ daysBeforeYear y2 := by
  induction y2, h using Nat.le_induction with
  | base => exact Nat.le_refl _
  | succ k hk ih =>
    have hstep := dby_succ k (by omega)
    split at hstep <;> omega

theorem dbm_add_dim_le (y m d : Nat) (hm1 : 1 ≤ m) (hm2 : m ≤ 12)
    (hd : d ≤ daysInMonthY y m) :
    daysBeforeMonthY y m + d ≤ 365 + (if isLeap y then 1 else 0) := by
  have h12 : m = 1 ∨ m = 2 ∨ m = 3 ∨ m = 4 ∨ m = 5 ∨ m = 6 ∨ m = 7 ∨
      m = 8 ∨ m = 9 ∨ m = 10 ∨ m = 11 ∨ m = 12 := by omega
  rcases h12 with hm|hm|hm|hm|hm|hm|hm|hm|hm|hm|hm|hm <;>
    subst hm <;>
    by_cases hl : isLeap y = true <;>
    simp [daysBeforeMonthY, daysInMonthY, DAYS_BEFORE_MONTH, DAYS_IN_MONTH, hl] at hd ⊢ <;>
    omega

theorem dbm_step (y m : Nat) (hm1 : 1 ≤ m) (hm2 : m ≤ 11) :
    daysBeforeMonthY y m + daysInMonthY y m = daysBeforeMonthY y (m + 1) := by
  have h11 : m = 1 ∨ m = 2 ∨ m = 3 ∨ m = 4 ∨ m = 5 ∨ m = 6 ∨ m = 7 ∨
      m = 8 ∨ m = 9 ∨ m = 10 ∨ m = 11 := by omega
  rcases h11 with hm|hm|hm|hm|hm|hm|hm|hm|hm|hm|hm <;>
    subst hm <;>
    by_cases hl : isLeap y = true <;>
    simp [daysBeforeMonthY, daysInMonthY, DAYS_BEFORE_MONTH, DAYS_IN_MONTH, hl]

theorem dbm_mono (y m m2 : Nat) (h : m ≤ m2) (h2 : m2 ≤ 12) (h0 : 1 ≤ m) :
    daysBeforeMonthY y m ≤ daysBeforeMonthY y m2 := by
  induction m2, h using Nat.le_induction with
  | base => exact Nat.le_refl _
  | succ k hk ih =>
    have hstep := dbm_step y k (by omega) (by omega)
    have := ih (by omega)
    omega

theorem ymd2ord_mono (y1 m1 d1 y2 m2 d2 : Nat)
    (hy1 : 1 ≤ y1) (hm11 : 1 ≤ m1) (hm12 : m1 ≤ 12) (hd11 : 1 ≤ d1)
    (hd12 : d1 ≤ daysInMonthY y1 m1)
    (hm21 : 1 ≤ m2) (hm22 : m2 ≤ 12) (hd21 : 1 ≤ d2)
    (hlt : dateLt (y1, m1, d1) (y2, m2, d2)) :
    ymd2ord y1 m1 d1 < ymd2ord y2 m2 d2 := by
  simp only [dateLt] at hlt
  rcases hlt with hy | ⟨hy, hm | ⟨hm, hd⟩⟩
  · have h1 : daysBeforeMonthY y1 m1 + d1 ≤ 365 + (if isLeap y1 then 1 else 0) :=
      dbm_add_dim_le y1 m1 d1 hm11 hm12 hd12
    have h2 := dby_succ y1 hy1
    have h3 := dby_mono (y1 + 1) y2 (by omega) (by omega)
    have h4 : 0 ≤ daysBeforeMonthY y2 m2 := Nat.zero_le _
    simp only [ymd2ord]
    split at h1 <;> split at h2 <;> omega
  · subst hy
    have h1 := dbm_step y1 m1 hm11 (by omega)
    have h2 := dbm_mono y1 (m1 + 1) m2 (by omega) hm22 (by omega)
    simp only [ymd2ord]
    omega
  · subst hy
    subst hm
    simp only [ymd2ord]
    omega

theorem ord2ymd_strictMono (a b : Nat) (h1 : 1 ≤ a) (h2 : b ≤ 3652059) (hab : a < b) :
    dateLt (ord2ymd a) (ord2ymd b) := by
  rcases hc1 : ord2ymd a with ⟨y1, m1, d1⟩
  rcases hc2 : ord2ymd b with ⟨y2, m2, d2⟩
  obtain ⟨hr1, hv1⟩ := ord2ymd_spec a y1 m1 d1 h1 (by omega) hc1
  obtain ⟨hr2, hv2⟩ := ord2ymd_spec b y2 m2 d2 (by omega) h2 hc2
  by_contra hnl
  simp only [dateLt] at hnl
  have hcase : (y2 < y1 ∨ (y2 = y1 ∧ (m2 < m1 ∨ (m2 = m1 ∧ d2 < d1)))) ∨
      (y2 = y1 ∧ m2 = m1 ∧ d2 = d1) := by
    push_neg at hnl
    omega
  rcases hcase with hcase | ⟨he1, he2, he3⟩
  · have := ymd2ord_mono y2 m2 d2 y1 m1 d1 hv2.1 hv2.2.2.1 hv2.2.2.2.1
      hv2.2.2.2.2.1 hv2.2.2.2.2.2 hv1.2.2.1 hv1.2.2.2.1 hv1.2.2.2.2.1 hcase
    omega
  · subst he1
    subst he2
    subst he3
    omega

/-! ## String comparison lemmas -/

theorem clCmp_cons (c d : Char) (x y : List Char) :
    clCmp (c :: x) (d :: y) =
      (if c.toNat < d.toNat then .lt else if d.toNat < c.toNat then .gt else clCmp x y) := rfl

theorem clCmp_self (l : List Char) : clCmp l l = .eq := by
  induction l with
  | nil => rfl
  | cons c rest ih =>
    rw [clCmp_cons, if_neg (Nat.lt_irrefl _), if_neg (Nat.lt_irrefl _), ih]

theorem clCmp_append (a b x y : List Char) (h : a.length = b.length) :
    clCmp (a ++ x) (b ++ y) = (clCmp a b).then (clCmp x y) := by
  induction a generalizing b with
  | nil =>
    cases b with
    | nil => rfl
    | cons d bs => simp at h
  | cons c as ih =>
    cases b with
    | nil => simp at h
    | cons d bs =>
      simp only [List.cons_append, clCmp_cons]
      by_cases h1 : c.toNat < d.toNat
      · rw [if_pos h1, if_pos h1]
        rfl
      · by_cases h2 : d.toNat < c.toNat
        · rw [if_neg h1, if_pos h2, if_neg h1, if_pos h2]
          rfl
        · rw [if_neg h1, if_neg h2, if_neg h1, if_neg h2]
          exact ih bs (by simpa using h)

theorem digitChar_lt_iff :
    ∀ a < 10, ∀ b < 10,
      ((Nat.digitChar a).toNat < (Nat.digitChar b).toNat ↔ a < b) := by decide

theorem pad2_cmp (a b : Nat) (ha : a < 100) (hb : b < 100) :
    clCmp (pad2 a) (pad2 b) = natCmp a b := by
  rw [pad2, pad2, natCmp]
  have d1 := digitChar_lt_iff (a / 10) (by omega) (b / 10) (by omega)
  have d2 := digitChar_lt_iff (b / 10) (by omega) (a / 10) (by omega)
  have d3 := digitChar_lt_iff (a % 10) (by omega) (b % 10) (by omega)
  have d4 := digitChar_lt_iff (b % 10) (by omega) (a % 10) (by omega)
  by_cases h1 : a / 10 < b / 10
  · rw [clCmp_cons, if_pos (d1.mpr h1), if_pos (by omega)]
  · by_cases h2 : b / 10 < a / 10
    · rw [clCmp_cons, if_neg (fun hx => h1 (d1.mp hx)), if_pos (d2.mpr h2),
        if_neg (by omega), if_pos (by omega)]
    · rw [clCmp_cons, if_neg (fun hx => h1 (d1.mp hx)), if_neg (fun hx => h2 (d2.mp hx))]
      by_cases h3 : a % 10 < b % 10
      · rw [clCmp_cons, if_pos (d3.mpr h3), if_pos (by omega)]
      · by_cases h4 : b % 10 < a % 10
        · rw [clCmp_cons, if_neg (fun hx => h3 (d3.mp hx)), if_pos (d4.mpr h4),
            if_neg (by omega), if_pos (by omega)]
        · rw [clCmp_cons, if_neg (fun hx => h3 (d3.mp hx)), if_neg (fun hx => h4 (d4.mp hx)),
            if_neg (by omega), if_neg (by omega)]
          rfl

theorem pad3_cmp (a b : Nat) (ha : a < 1000) (hb : b < 1000) :
    clCmp (pad3 a) (pad3 b) = natCmp a b := by
  rw [pad3, pad3, natCmp]
  have d1 := digitChar_lt_iff (a / 100) (by omega) (b / 100) (by omega)
  have d2 := digitChar_lt_iff (b / 100) (by omega) (a / 100) (by omega)
  by_cases h1 : a / 100 < b / 100
  · rw [clCmp_cons, if_pos (d1.mpr h1), if_pos (by omega)]
  · by_cases h2 : b / 100 < a / 100
    · rw [clCmp_cons, if_neg (fun hx => h1 (d1.mp hx)), if_pos (d2.mpr h2),
        if_neg (by omega), if_pos (by omega)]
    · rw [clCmp_cons, if_neg (fun hx => h1 (d1.mp hx)), if_neg (fun hx => h2 (d2.mp hx)),
        pad2_cmp (a % 100) (b % 100) (by omega) (by omega), natCmp]
      by_cases h3 : a < b
      · rw [if_pos (by omega), if_pos h3]
      · by_cases h4 : b < a
        · rw [if_neg (by omega), if_pos (by omega), if_neg h3, if_pos h4]
        · rw [if_neg (by omega), if_neg (by omega), if_neg h3, if_neg h4]

theorem pad4_cmp (a b : Nat) (ha : a < 10000) (hb : b < 10000) :
    clCmp (pad4 a) (pad4 b) = natCmp a b := by
  rw [pad4, pad4, natCmp]
  have d1 := digitChar_lt_iff (a / 1000) (by omega) (b / 1000) (by omega)
  have d2 := digitChar_lt_iff (b / 1000) (by omega) (a / 1000) (by omega)
  by_cases h1 : a / 1000 < b / 1000
  · rw [clCmp_cons, if_pos (d1.mpr h1), if_pos (by omega)]
  · by_cases h2 : b / 1000 < a / 1000
    · rw [clCmp_cons, if_neg (fun hx => h1 (d1.mp hx)), if_pos (d2.mpr h2),
        if_neg (by omega), if_pos (by omega)]
    · rw [clCmp_cons, if_neg (fun hx => h1 (d1.mp hx)), if_neg (fun hx => h2 (d2.mp hx)),
        pad3_cmp (a % 1000) (b % 1000) (by omega) (by omega), natCmp]
      by_cases h3 : a < b
      · rw [if_pos (by omega), if_pos h3]
      · by_cases h4 : b < a
        · rw [if_neg (by omega), if_pos (by omega), if_neg h3, if_pos h4]
        · rw [if_neg (by omega), if_neg (by omega), if_neg h3, if_neg h4]

theorem yearChars_eq_pad4 (y : Nat) (h1 : 1000 ≤ y) (h2 : y ≤ 9999) :
    yearChars y = pad4 y := by
  rw [yearChars, if_neg (by omega), if_neg (by omega), if_neg (by omega)]

theorem natCmp_lt (a b : Nat) (h : a < b) : natCmp a b = .lt := by
  rw [natCmp, if_pos h]

theorem natCmp_self (a : Nat) : natCmp a a = .eq := by
  rw [natCmp, if_neg (Nat.lt_irrefl _), if_neg (Nat.lt_irrefl _)]

theorem lt_then (p : Ordering) : Ordering.lt.then p = .lt := rfl

theorem eq_then (p : Ordering) : Ordering.eq.then p = p := rfl

theorem dim_le_31 (m : Nat) : DAYS_IN_MONTH m ≤ 31 := by
  unfold DAYS_IN_MONTH
  split <;> omega

theorem dimY_le_31 (y m : Nat) : daysInMonthY y m ≤ 31 := by
  rw [daysInMonthY]
  split
  · omega
  · exact dim_le_31 m

theorem dateChars_len (y m d : Nat) (h1 : 1000 ≤ y) (h2 : y ≤ 9999) :
    (dateChars (y, m, d)).length = 10 := by
  simp [dateChars, yearChars_eq_pad4 y h1 h2, pad4, pad3, pad2]

theorem dateChars_cmp (y1 m1 d1 y2 m2 d2 : Nat)
    (hy1a : 1000 ≤ y1) (hy1b : y1 ≤ 9999) (hy2a : 1000 ≤ y2) (hy2b : y2 ≤ 9999)
    (hm1 : m1 < 100) (hm2 : m2 < 100) (hd1 : d1 < 100) (hd2 : d2 < 100) :
    clCmp (dateChars (y1, m1, d1)) (dateChars (y2, m2, d2)) =
      (natCmp y1 y2).then ((natCmp m1 m2).then (natCmp d1 d2)) := by
  simp only [dateChars]
  rw [yearChars_eq_pad4 y1 hy1a hy1b, yearChars_eq_pad4 y2 hy2a hy2b]
  rw [clCmp_append _ _ _ _ (by rfl), pad4_cmp y1 y2 (by omega) (by omega)]
  rw [clCmp_cons, if_neg (Nat.lt_irrefl _), if_neg (Nat.lt_irrefl _)]
  rw [clCmp_append _ _ _ _ (by rfl), pad2_cmp m1 m2 hm1 hm2]
  rw [clCmp_cons, if_neg (Nat.lt_irrefl _), if_neg (Nat.lt_irrefl _)]
  rw [pad2_cmp d1 d2 hd1 hd2]

theorem timeChars_cmp (u1 u2 : Nat) (h1 : u1 < 86400000000) (h2 : u2 < 86400000000) :
    clCmp (timeChars u1) (timeChars u2) =
      (natCmp (u1 / 3600000000) (u2 / 3600000000)).then
        ((natCmp (u1 % 3600000000 / 60000000) (u2 % 3600000000 / 60000000)).then
          ((natCmp (u1 % 3600000000 % 60000000 / 1000000)
              (u2 % 3600000000 % 60000000 / 1000000)).then
            (natCmp (u1 % 3600000000 % 60000000 % 1000000 / 1000)
              (u2 % 3600000000 % 60000000 % 1000000 / 1000)))) := by
  simp only [timeChars]
  rw [clCmp_cons, if_neg (Nat.lt_irrefl _), if_neg (Nat.lt_irrefl _)]
  rw [clCmp_append _ _ _ _ (by rfl), pad2_cmp _ _ (by omega) (by omega)]
  rw [clCmp_cons, if_neg (Nat.lt_irrefl _), if_neg (Nat.lt_irrefl _)]
  rw [clCmp_append _ _ _ _ (by rfl), pad2_cmp _ _ (by omega) (by omega)]
  rw [clCmp_cons, if_neg (Nat.lt_irrefl _), if_neg (Nat.lt_irrefl _)]
  rw [clCmp_append _ _ _ _ (by rfl), pad2_cmp _ _ (by omega) (by omega)]
  rw [clCmp_cons, if_neg (Nat.lt_irrefl _), if_neg (Nat.lt_irrefl _)]
  rw [clCmp_append _ _ _ _ (by rfl), pad3_cmp _ _ (by omega) (by omega)]
  rw [clCmp_self]
  cases natCmp (u1 % 3600000000 % 60000000 % 1000000 / 1000)
      (u2 % 3600000000 % 60000000 % 1000000 / 1000) <;> rfl

theorem dateCmp_lt_of (y1 m1 d1 y2 m2 d2 : Nat)
    (hdl : dateLt (y1, m1, d1) (y2, m2, d2)) :
    (natCmp y1 y2).then ((natCmp m1 m2).then (natCmp d1 d2)) = .lt := by
  simp only [dateLt] at hdl
  rcases hdl with h | ⟨he, h | ⟨he2, h⟩⟩
  · rw [natCmp_lt _ _ h, lt_then]
  · rw [he, natCmp_self, eq_then, natCmp_lt _ _ h, lt_then]
  · rw [he, he2, natCmp_self, eq_then, natCmp_self, eq_then, natCmp_lt _ _ h]

theorem timeCmp_le (u1 u2 : Nat) (hb1 : u1 < 86400000000) (hb2 : u2 < 86400000000)
    (h : u1 ≤ u2) : clCmp (timeChars u1) (timeChars u2) ≠ Ordering.gt := by
  rw [timeChars_cmp u1 u2 hb1 hb2]
  by_cases hh : u1 / 3600000000 < u2 / 3600000000
  · rw [natCmp_lt _ _ hh, lt_then]
    decide
  · have hhe : u1 / 3600000000 = u2 / 3600000000 := by omega
    rw [hhe, natCmp_self, eq_then]
    by_cases hmi : u1 % 3600000000 / 60000000 < u2 % 3600000000 / 60000000
    · rw [natCmp_lt _ _ hmi, lt_then]
      decide
    · have hmie : u1 % 3600000000 / 60000000 = u2 % 3600000000 / 60000000 := by omega
      rw [hmie, natCmp_self, eq_then]
      by_cases hs : u1 % 3600000000 % 60000000 / 1000000 < u2 % 3600000000 % 60000000 / 1000000
      · rw [natCmp_lt _ _ hs, lt_then]
        decide
      · have hse : u1 % 3600000000 % 60000000 / 1000000 =
            u2 % 3600000000 % 60000000 / 1000000 := by omega
        rw [hse, natCmp_self, eq_then]
        by_cases hms : u1 % 3600000000 % 60000000 % 1000000 / 1000 <
            u2 % 3600000000 % 60000000 % 1000000 / 1000
        · rw [natCmp_lt _ _ hms]
          decide
        · have hmse : u1 % 3600000000 % 60000000 % 1000000 / 1000 =
              u2 % 3600000000 % 60000000 % 1000000 / 1000 := by omega
          rw [hmse, natCmp_self]
          decide

theorem year_ge_1000 (n y m d : Nat) (hn1 : 364878 ≤ n) (hn2 : n ≤ 3652059)
    (heq : ord2ymd n = (y, m, d)) : 1000 ≤ y := by
  obtain ⟨hr, hv⟩ := ord2ymd_spec n y m d (by omega) hn2 heq
  by_contra hlt
  have hdl : dateLt (y, m, d) (1000, 1, 1) := by
    simp only [dateLt]
    omega
  have hmono := ymd2ord_mono y m d 1000 1 1 hv.1 hv.2.2.1 hv.2.2.2.1 hv.2.2.2.2.1
    hv.2.2.2.2.2 (by omega) (by omega) (by omega) hdl
  have hc : ymd2ord 1000 1 1 = 364878 := by decide
  omega

theorem stampChars_le (us1 us2 : Int) (hlo : -30610224000000000 ≤ us1)
    (hhi : us2 ≤ 253402300799999999) (hle : us1 ≤ us2) :
    clCmp (stampChars us1) (stampChars us2) ≠ Ordering.gt := by
  rw [stampChars, stampChars]
  simp only [EPOCH_ORDINAL, usPerDay]
  obtain ⟨o1, ho1⟩ : ∃ q, Int.toNat (((719163 : Nat) : Int) + us1 / 86400000000) = q :=
    ⟨_, rfl⟩
  obtain ⟨o2, ho2⟩ : ∃ q, Int.toNat (((719163 : Nat) : Int) + us2 / 86400000000) = q :=
    ⟨_, rfl⟩
  obtain ⟨u1, hu1⟩ : ∃ q, Int.toNat (us1 % 86400000000) = q := ⟨_, rfl⟩
  obtain ⟨u2, hu2⟩ : ∃ q, Int.toNat (us2 % 86400000000) = q := ⟨_, rfl⟩
  rw [ho1, ho2, hu1, hu2]
  have hb : 364878 ≤ o1 ∧ o1 ≤ o2 ∧ o2 ≤ 3652059 ∧ u1 < 86400000000 ∧
      u2 < 86400000000 ∧ (o1 = o2 → u1 ≤ u2) := by omega
  rcases hc1 : ord2ymd o1 with ⟨y1, m1, d1⟩
  rcases hc2 : ord2ymd o2 with ⟨y2, m2, d2⟩
  obtain ⟨hr1, hv1⟩ := ord2ymd_spec o1 y1 m1 d1 (by omega) (by omega) hc1
  obtain ⟨hr2, hv2⟩ := ord2ymd_spec o2 y2 m2 d2 (by omega) (by omega) hc2
  have hy1k := year_ge_1000 o1 y1 m1 d1 (by omega) (by omega) hc1
  have hy2k := year_ge_1000 o2 y2 m2 d2 (by omega) (by omega) hc2
  have hdle1 := dimY_le_31 y1 m1
  have hdle2 := dimY_le_31 y2 m2
  have hlen : (dateChars (y1, m1, d1)).length = (dateChars (y2, m2, d2)).length := by
    rw [dateChars_len y1 m1 d1 hy1k hv1.2.1, dateChars_len y2 m2 d2 hy2k hv2.2.1]
  rw [clCmp_append _ _ _ _ hlen]
  rw [dateChars_cmp y1 m1 d1 y2 m2 d2 hy1k hv1.2.1 hy2k hv2.2.1
    (by omega) (by omega) (by omega) (by omega)]
  rcases Nat.lt_or_ge o1 o2 with hcase | hcase
  · have hdl := ord2ymd_strictMono o1 o2 (by omega) (by omega) hcase
    rw [hc1, hc2] at hdl
    rw [dateCmp_lt_of y1 m1 d1 y2 m2 d2 hdl, lt_then]
    decide
  · have ho : o1 = o2 := by omega
    subst ho
    rw [hc1] at hc2
    obtain ⟨hy, hm, hd⟩ : y1 = y2 ∧ m1 = m2 ∧ d1 = d2 := by
      rw [Prod.mk.injEq, Prod.mk.injEq] at hc2
      exact ⟨hc2.1, hc2.2.1, hc2.2.2⟩
    subst hy
    subst hm
    subst hd
    rw [natCmp_self, natCmp_self, natCmp_self, eq_then, eq_then, eq_then]
    exact timeCmp_le u1 u2 (by omega) (by omega) (by omega)

theorem rhe_le (q : ℚ) : (⌊q⌋ : Int) ≤ rhe q ∧ rhe q ≤ ⌊q⌋ + 1 := by
  simp only [rhe]
  split_ifs <;> omega

theorem rhe_mono (q1 q2 : ℚ) (h : q1 ≤ q2) : rhe q1 ≤ rhe q2 := by
  have hf : ⌊q1⌋ ≤ ⌊q2⌋ := Int.floor_mono h
  rcases eq_or_lt_of_le hf with hf | hf
  · have hr : q1 - (⌊q1⌋ : ℚ) ≤ q2 - (⌊q2⌋ : ℚ) := by
      rw [← hf]
      linarith
    simp only [rhe]
    rw [← hf]
    split_ifs <;> first | omega | linarith
  · have hb1 := rhe_le q1
    have hb2 := rhe_le q2
    omega

/-! ## C8: monotonicity of the timestamp formatter -/

/-- C8 (amended): the timestamp formatter is monotone on the part of the
    representable range where the UTC year has four digits (years 1000 to
    9999): whenever both rounded microsecond values fall in that range and
    t1 is at most t2, both formats succeed and the first string is
    lexicographically at most the second.  Below year 1000 the year field is
    not zero padded, which breaks lexicographic order at the 999 to 1000
    boundary. -/
theorem claim8_timestamp_monotone (t1 t2 : ℚ)
    (h1 : -30610224000000000 ≤ rhe (t1 * 1000000))
    (h2 : rhe (t2 * 1000000) ≤ 253402300799999999)
    (hle : t1 ≤ t2) :
    ∃ s1 s2, format_timestamp t1 = .ok s1 ∧ format_timestamp t2 = .ok s2 ∧
      strLe s1 s2 = true := by
  have hm : rhe (t1 * 1000000) ≤ rhe (t2 * 1000000) :=
    rhe_mono _ _ (mul_le_mul_of_nonneg_right hle (by norm_num))
  refine ⟨_, _,
    format_timestamp_eq_ok t1 (rhe (t1 * 1000000)) rfl (by omega) (by omega),
    format_timestamp_eq_ok t2 (rhe (t2 * 1000000)) rfl (by omega) (by omega), ?_⟩
  have hne := stampChars_le (rhe (t1 * 1000000)) (rhe (t2 * 1000000))
    (by omega) (by omega) hm
  rw [strLe]
  have hdata : ∀ l : List Char, (String.mk l).data = l := fun l => rfl
  rw [hdata, hdata]
  cases hcc : clCmp (stampChars (rhe (t1 * 1000000))) (stampChars (rhe (t2 * 1000000))) with
  | lt => rfl
  | eq => rfl
  | gt => exact absurd hcc hne

/-- Witness for C8 at zero and one second. -/
theorem claim8_witness :
    ∃ s1 s2, format_timestamp 0 = .ok s1 ∧ format_timestamp 1 = .ok s2 ∧
      strLe s1 s2 = true :=
  claim8_timestamp_monotone 0 1 (by norm_num [rhe]) (by norm_num [rhe]) (by norm_num)

/-- Counterexample to C8 as stated: one second before 1000-01-01 formats to a
    string starting with the UNPADDED three-digit year 999, which compares
    lexicographically above the 1000-01-01 stamp, so monotonicity fails
    inside the representable range. -/
theorem claim8_counterexample :
    ((-30610224001 : ℚ) ≤ -30610224000) ∧
    format_timestamp (-30610224001) = .ok "999-12-31T23:59:59.000Z" ∧
    format_timestamp (-30610224000) = .ok "1000-01-01T00:00:00.000Z" ∧
    strLe "999-12-31T23:59:59.000Z" "1000-01-01T00:00:00.000Z" = false := by
  refine ⟨by norm_num, ?_, ?_, by decide⟩
  · rw [format_timestamp_eq_ok (-30610224001) (-30610224001000000)
      (by norm_num [rhe]) (by decide) (by decide)]
    decide
  · rw [format_timestamp_eq_ok (-30610224000) (-30610224000000000)
      (by norm_num [rhe]) (by decide) (by decide)]
    decide

/-! ## C3: the shape of the timestamp -/

/-- C3 (amended): on the part of the representable range with a four-digit
    UTC year, the formatter returns exactly the shape
    YYYY-MM-DDTHH:MM:SS.mmmZ (two-digit zero-padded fields, exactly three
    fractional digits, trailing Z), where the millisecond field is the
    rounded-to-microseconds value truncated (not rounded) to milliseconds:
    pure truncation of the fractional seconds fails within half a
    microsecond below a millisecond boundary, and years below 1000 are not
    zero padded. -/
theorem claim3_timestamp_shape (t : ℚ)
    (h1 : -30610224000000000 ≤ rhe (t * 1000000))
    (h2 : rhe (t * 1000000) ≤ 253402300799999999) :
    ∃ y m d h mi s ms,
      format_timestamp t = .ok (String.mk
        ((pad4 y ++ '-' :: (pad2 m ++ '-' :: pad2 d)) ++
          ('T' :: (pad2 h ++ ':' :: (pad2 mi ++ ':' :: (pad2 s ++ '.' :: (pad3 ms ++ ['Z']))))))) ∧
      1000 ≤ y ∧ y ≤ 9999 ∧ 1 ≤ m ∧ m ≤ 12 ∧ 1 ≤ d ∧ d ≤ 31 ∧
      h < 24 ∧ mi < 60 ∧ s < 60 ∧ ms < 1000 ∧
      ms = ((rhe (t * 1000000)) % 1000000).toNat / 1000 := by
  rw [format_timestamp_eq_ok t (rhe (t * 1000000)) rfl (by omega) (by omega)]
  rw [stampChars]
  simp only [EPOCH_ORDINAL, usPerDay]
  obtain ⟨o, ho⟩ : ∃ q, Int.toNat (((719163 : Nat) : Int) + rhe (t * 1000000) / 86400000000) = q :=
    ⟨_, rfl⟩
  obtain ⟨u, hu⟩ : ∃ q, Int.toNat (rhe (t * 1000000) % 86400000000) = q := ⟨_, rfl⟩
  rw [ho, hu]
  have hb : 364878 ≤ o ∧ o ≤ 3652059 ∧ u < 86400000000 := by omega
  rcases hc : ord2ymd o with ⟨y, m, d⟩
  obtain ⟨hr, hv⟩ := ord2ymd_spec o y m d (by omega) (by omega) hc
  have hy1k := year_ge_1000 o y m d (by omega) (by omega) hc
  have hdle := dimY_le_31 y m
  refine ⟨y, m, d, u / 3600000000, u % 3600000000 / 60000000,
    u % 3600000000 % 60000000 / 1000000, u % 3600000000 % 60000000 % 1000000 / 1000,
    ?_, hy1k, hv.2.1, hv.2.2.1, hv.2.2.2.1, hv.2.2.2.2.1, by omega,
    by omega, by omega, by omega, by omega, ?_⟩
  · simp only [dateChars, timeChars]
    rw [yearChars_eq_pad4 y hy1k hv.2.1]
  · rw [← hu]
    omega

/-- Witness for C3 at the epoch. -/
theorem claim3_witness :
    ∃ y m d h mi s ms,
      format_timestamp 0 = .ok (String.mk
        ((pad4 y ++ '-' :: (pad2 m ++ '-' :: pad2 d)) ++
          ('T' :: (pad2 h ++ ':' :: (pad2 mi ++ ':' :: (pad2 s ++ '.' :: (pad3 ms ++ ['Z']))))))) ∧
      1000 ≤ y ∧ y ≤ 9999 ∧ 1 ≤ m ∧ m ≤ 12 ∧ 1 ≤ d ∧ d ≤ 31 ∧
      h < 24 ∧ mi < 60 ∧ s < 60 ∧ ms < 1000 ∧
      ms = ((rhe ((0 : ℚ) * 1000000)) % 1000000).toNat / 1000 :=
  claim3_timestamp_shape 0 (by norm_num [rhe]) (by norm_num [rhe])

/-- Counterexample to C3 as stated: at 0.0009996 seconds the fractional part
    truncates to 0 milliseconds, but the formatter first rounds to
    microseconds (1000) and renders 001; and at the minimum representable
    timestamp the year 1 is rendered with a single digit, not four. -/
theorem claim3_counterexample :
    format_timestamp (9996 / 10000000) = .ok "1970-01-01T00:00:00.001Z" ∧
    (⌊(9996 / 10000000 : ℚ) * 1000⌋ = 0) ∧
    format_timestamp (-62135596800) = .ok "1-01-01T00:00:00.000Z" := by
  refine ⟨?_, by norm_num, ?_⟩
  · rw [format_timestamp_eq_ok (9996 / 10000000) 1000
      (by norm_num [rhe]) (by decide) (by decide)]
    decide
  · rw [format_timestamp_eq_ok (-62135596800) (-62135596800000000)
      (by norm_num [rhe]) (by decide) (by decide)]
    decide

end Logstash
